import Mathlib

/-!
Verification of the number-poker game session core.

This file shallowly embeds the server game service (deck builder, equation
evaluator, scoring/payout resolver and session state machine) as executable
Lean definitions, and settles the specification claims as theorems.

Modelling conventions:
* JS numbers holding chip counts, bets and pot values are modelled as `Int`;
  equation evaluation results are modelled as exact fractions (`JsNum`).
* Mutation of the session object is modelled by state-passing functions
  `GameState → GameState`; methods that can `throw` before mutating anything
  are modelled as `Except String GameState` (on every embedded error path the
  source throws before its first mutation, so an error result means the state
  is unchanged).
* Randomness (deck shuffling, bot swap choices) is modelled by an explicit
  parameter `rand : Nat → Nat`, consumed with an index; `rand i % bound`
  realizes every possible draw, so theorems quantified over `rand` cover all
  random behaviours.
* The asynchronous bot turn (`handleBotTurn`) suspends at an `await` before
  doing any work, so within one synchronous action transaction it performs no
  mutation; it is therefore not part of the embedded transition.
* Socket notifications (`notifyGameUpdate`, `requireSwap` emission) do not
  change session state and are not modelled.
-/

namespace NumberPoker

/-- Host floating-point numbers are modelled as explicit fractions with a
positive denominator (exact for every computation the claims exercise; float
rounding and overflow are outside the model).  Value comparisons are by
cross-multiplication, mirroring numeric comparison of the host. -/
structure JsNum where
  num : Int
  den : Int
deriving DecidableEq

def JsNum.ofNat (n : Nat) : JsNum := ⟨n, 1⟩

def jadd (a b : JsNum) : JsNum := ⟨a.num * b.den + b.num * a.den, a.den * b.den⟩

def jsub (a b : JsNum) : JsNum := ⟨a.num * b.den - b.num * a.den, a.den * b.den⟩

def jmul (a b : JsNum) : JsNum := ⟨a.num * b.num, a.den * b.den⟩

/-- Division (the caller rules out a zero divisor); the sign is normalized
into the numerator to keep denominators positive. -/
def jdivi (a b : JsNum) : JsNum :=
  let n := a.num * b.den
  let d := a.den * b.num
  if d < 0 then ⟨-n, -d⟩ else ⟨n, d⟩

def jIsZero (a : JsNum) : Bool := a.num = 0

def jlt (a b : JsNum) : Bool := a.num * b.den < b.num * a.den

def jeqv (a b : JsNum) : Bool := a.num * b.den = b.num * a.den

/-- `Math.abs`. -/
def jabs (a : JsNum) : JsNum := if a.num < 0 then ⟨-a.num, a.den⟩ else a

def jneg (a : JsNum) : JsNum := ⟨-a.num, a.den⟩

/-! ## Data model (src/shared/types.ts) -/

inductive CardColor | gold | silver | bronze | dark
deriving DecidableEq

inductive OperationType | add | subtract | multiply | divide | squareRoot
deriving DecidableEq

inductive Card
  | number (value : Int) (color : CardColor)
  | operation (op : OperationType)
deriving DecidableEq

instance : Inhabited Card := ⟨Card.operation OperationType.add⟩

/-- Bet-type selection values; the source also admits the literal
`'not selected'` besides `small`/`big`/`both` (absence is `Option.none`). -/
inductive BetType | small | big | both | notSelected
deriving DecidableEq

structure SubmittedEquations where
  small : Option String
  big : Option String
deriving DecidableEq

structure Player where
  id : String
  name : String
  chips : Int
  cards : List Card
  operationCards : List OperationType
  bet : Int
  betType : Option BetType
  isActive : Bool
  isFolded : Bool
  submittedEquations : Option SubmittedEquations
  isSquareRoot : Bool
  hasMultiply : Bool
deriving DecidableEq

inductive Phase
  | waiting | preflop | dealing1 | betting1 | dealing2 | betting2 | equation | ended
deriving DecidableEq

structure WinnersRecord where
  small : List String
  big : List String
deriving DecidableEq

/-- One row of the `equationResults` display table built by the resolver. -/
structure EquationResultEntry where
  playerId : String
  playerName : String
  betType : BetType
  small : Option (String × JsNum)
  big : Option (String × JsNum)
deriving DecidableEq

structure GameState where
  id : String
  players : List Player
  deck : List Card
  currentPlayer : String
  pot : Int
  currentBet : Int
  phase : Phase
  round : Int
  winners : WinnersRecord
  equationResults : Option (List EquationResultEntry)
deriving DecidableEq

inductive ActionType
  | bet | fold | call | raise | selectBetType | submitEquation | continueAction
  | swapCard | noSwap
deriving DecidableEq

structure GameAction where
  type : ActionType
  playerId : String
  amount : Option Int
  betType : Option BetType
  equations : Option SubmittedEquations
  swapCardType : Option OperationType
deriving DecidableEq

/-! ## Equation evaluator (`safeEval` inside `resolveEquationsAndDistributePot`)

The source tokenizes the expression by splitting on `sqrt` and the single
characters `+ - * / ( )`, rebuilds a host-language expression string and
evaluates it with the host evaluator, returning `null` for exceptions and
non-finite results.  The embedding reproduces the tokenizer exactly and models
the host evaluation as a parser for the host expression grammar over the token
sequence (precedence `* /` over `+ -`, unary signs, left association), with
division by zero producing a non-finite (hence `null`) outcome.

Model boundaries (none is exercised by any claim):
* adjacent operator tokens that the host lexer would fuse into the compound
  tokens `++`, `--`, `**`, `//` or `/*` are mapped to failure;
* square roots of non-perfect squares, which the host computes as floating
  approximations, are mapped to failure (the rational model has no value for
  them), and float overflow of astronomically large results is ignored. -/

/-- `s.trim()` (structural re-implementation of whitespace trimming). -/
def jsTrim (s : String) : String :=
  String.mk (((s.data.dropWhile Char.isWhitespace).reverse.dropWhile
    Char.isWhitespace).reverse)

/-- Characters the tokenizing split treats as delimiters. -/
def isDelimChar (c : Char) : Bool :=
  c = '+' || c = '-' || c = '*' || c = '/' || c = '(' || c = ')'

/-- `expr.split(/(sqrt|[\+\-\*\/\(\)])/)`: split keeping the delimiters. -/
def splitParts : List Char → List Char → List String
  | [], acc => [String.mk acc.reverse]
  | 's' :: 'q' :: 'r' :: 't' :: rest, acc =>
      String.mk acc.reverse :: "sqrt" :: splitParts rest []
  | c :: rest, acc =>
      if isDelimChar c then
        String.mk acc.reverse :: String.mk [c] :: splitParts rest []
      else
        splitParts rest (c :: acc)

/-- The filtered parts list: `.filter(p => p.trim())` drops parts whose trim
is empty (the empty string is falsy). -/
def exprParts (s : String) : List String :=
  (splitParts s.data []).filter (fun p => jsTrim p ≠ "")

/-- `/^\d+$/.test(s)` -/
def isDigitStr (s : String) : Bool :=
  !s.data.isEmpty && s.data.all Char.isDigit

/-- `s.startsWith("(")`. -/
def startsWithParen (s : String) : Bool :=
  match s.data with
  | '(' :: _ => true
  | _ => false

inductive JsBinOp | addOp | subOp | mulOp | divOp
deriving DecidableEq

inductive Tok
  | num (s : String)
  | op (o : JsBinOp)
  | sqrtNum (s : String)
  | sqrtOpen
deriving DecidableEq

/-- The token-building loop of `safeEval`.  `none` models the explicit
`return null` taken when `sqrt` is not followed by a number or an opening
parenthesis; parts matching none of the cases (such as `)`) are dropped. -/
def buildToks : List String → Option (List Tok)
  | [] => some []
  | p :: rest =>
    let part := jsTrim p
    if part = "" then buildToks rest
    else if isDigitStr part then (buildToks rest).map (Tok.num part :: ·)
    else if part = "sqrt" then
      match rest with
      | [] => none
      | q :: rest2 =>
        let np := jsTrim q
        if startsWithParen np then (buildToks rest2).map (Tok.sqrtOpen :: ·)
        else if isDigitStr np then (buildToks rest2).map (Tok.sqrtNum np :: ·)
        else none
    else if part = "+" then (buildToks rest).map (Tok.op .addOp :: ·)
    else if part = "-" then (buildToks rest).map (Tok.op .subOp :: ·)
    else if part = "*" then (buildToks rest).map (Tok.op .mulOp :: ·)
    else if part = "/" then (buildToks rest).map (Tok.op .divOp :: ·)
    else buildToks rest

/-- Numeric value of a digit string. -/
def digitsVal (s : String) : Nat :=
  s.data.foldl (fun a c => 10 * a + (c.toNat - 48)) 0

/-- Adjacent numeric literals concatenate textually in the rebuilt string. -/
def fuseNums : List Tok → List Tok
  | [] => []
  | Tok.num a :: rest =>
    match fuseNums rest with
    | Tok.num b :: rest2 => Tok.num (a ++ b) :: rest2
    | r => Tok.num a :: r
  | t :: rest => t :: fuseNums rest

/-- Detects adjacent operator pairs the host lexer would fuse into `++`, `--`,
`**`, `//` or `/*` (model boundary: mapped to failure). -/
def hasLexFusion : List Tok → Bool
  | Tok.op a :: Tok.op b :: rest =>
      (a = .addOp && b = .addOp) || (a = .subOp && b = .subOp) ||
      (a = .mulOp && b = .mulOp) || (a = .divOp && b = .divOp) ||
      (a = .divOp && b = .mulOp) || hasLexFusion (Tok.op b :: rest)
  | _ :: rest => hasLexFusion rest
  | [] => false

/-- `Math.sqrt(n)`: exact square root of a natural number, or `none` (model
boundary: irrational roots receive floating approximations in the host). -/
def jsSqrtNat (n : Nat) : Option JsNum :=
  match (List.range (n + 1)).find? (fun r => r * r = n) with
  | some r => some (JsNum.ofNat r)
  | none => none

/-- Division with the host non-finite semantics collapsed to `none`. -/
def jsDiv : Option JsNum → Option JsNum → Option JsNum
  | some a, some b => if jIsZero b then none else some (jdivi a b)
  | _, _ => none

def jsAdd : Option JsNum → Option JsNum → Option JsNum
  | some a, some b => some (jadd a b)
  | _, _ => none

def jsSub : Option JsNum → Option JsNum → Option JsNum
  | some a, some b => some (jsub a b)
  | _, _ => none

def jsMul : Option JsNum → Option JsNum → Option JsNum
  | some a, some b => some (jmul a b)
  | _, _ => none

/-- Primary expression: a numeric literal or a `Math.sqrt(n)` call. -/
def parsePrimary : List Tok → Option (Option JsNum × List Tok)
  | Tok.num s :: rest => some (some (JsNum.ofNat (digitsVal s)), rest)
  | Tok.sqrtNum s :: rest => some (jsSqrtNat (digitsVal s), rest)
  | _ => none

/-- Unary expression: a chain of alternating `+`/`-` signs over a primary. -/
def parseUnary (fuel : Nat) : List Tok → Option (Option JsNum × List Tok)
  | l =>
    match fuel with
    | 0 => none
    | fuel + 1 =>
      match l with
      | Tok.op .addOp :: rest => parseUnary fuel rest
      | Tok.op .subOp :: rest =>
          (parseUnary fuel rest).map (fun (v, r) => (v.map jneg, r))
      | _ => parsePrimary l

/-- Multiplicative chain. -/
def parseTermLoop (fuel : Nat) (acc : Option JsNum) :
    List Tok → Option (Option JsNum × List Tok)
  | l =>
    match fuel with
    | 0 => none
    | fuel + 1 =>
      match l with
      | Tok.op .mulOp :: rest =>
          match parseUnary fuel rest with
          | some (v, r) => parseTermLoop fuel (jsMul acc v) r
          | none => none
      | Tok.op .divOp :: rest =>
          match parseUnary fuel rest with
          | some (v, r) => parseTermLoop fuel (jsDiv acc v) r
          | none => none
      | _ => some (acc, l)

def parseTerm (fuel : Nat) (l : List Tok) : Option (Option JsNum × List Tok) :=
  match parseUnary fuel l with
  | some (v, r) => parseTermLoop fuel v r
  | none => none

/-- Additive chain. -/
def parseExprLoop (fuel : Nat) (acc : Option JsNum) :
    List Tok → Option (Option JsNum × List Tok)
  | l =>
    match fuel with
    | 0 => none
    | fuel + 1 =>
      match l with
      | Tok.op .addOp :: rest =>
          match parseTerm fuel rest with
          | some (v, r) => parseExprLoop fuel (jsAdd acc v) r
          | none => none
      | Tok.op .subOp :: rest =>
          match parseTerm fuel rest with
          | some (v, r) => parseExprLoop fuel (jsSub acc v) r
          | none => none
      | _ => some (acc, l)

def parseExpr (fuel : Nat) (l : List Tok) : Option (Option JsNum × List Tok) :=
  match parseTerm fuel l with
  | some (v, r) => parseExprLoop fuel v r
  | none => none

/-- Host evaluation of the rebuilt expression string: parse the whole token
sequence as one expression; any syntax error or non-finite value is `none`. -/
def evalToks (toks : List Tok) : Option JsNum :=
  if toks.contains Tok.sqrtOpen then none
  else
    let ft := fuseNums toks
    if hasLexFusion ft then none
    else
      match parseExpr (ft.length + 1) ft with
      | some (v, []) => v
      | _ => none

/-- `safeEval` of `resolveEquationsAndDistributePot` (src/unnamed/part_008,
lines 2535-2589). -/
def safeEval (expr : String) : Option JsNum :=
  match buildToks (exprParts expr) with
  | none => none
  | some toks =>
    if toks.length = 0 then none
    else evalToks toks

/-! ## Deck builder (`createDeck`, lines 2441-2465) -/

def colorsInOrder : List CardColor := [.gold, .silver, .bronze, .dark]

/-- Deck contents before shuffling: for each color one number card per value
0..10, then four multiply/squareRoot pairs. -/
def unshuffledDeck : List Card :=
  (colorsInOrder.flatMap fun color =>
    (List.range 11).map fun v => Card.number (v : Int) color)
  ++ (List.range 4).flatMap fun _ =>
      [Card.operation .multiply, Card.operation .squareRoot]

/-- Exchange the elements at positions `i` and `j` (identity when either index
is out of range, which the shuffle never produces). -/
def listSwap (l : List Card) (i j : Nat) : List Card :=
  match l[i]?, l[j]? with
  | some x, some y => (l.set i y).set j x
  | _, _ => l

/-- The Fisher-Yates loop `for (i = n-1; i > 0; i--) swap(i, randomBelow(i+1))`;
`rand i % (i+1)` realizes every possible draw of `Math.floor(Math.random()*(i+1))`. -/
def fisherYates (rand : Nat → Nat) : Nat → List Card → List Card
  | 0, l => l
  | i + 1, l => fisherYates rand i (listSwap l (i + 1) (rand (i + 1) % (i + 2)))

def createDeck (rand : Nat → Nat) : List Card :=
  fisherYates rand (unshuffledDeck.length - 1) unshuffledDeck

/-! ## Scoring and payout resolver (`resolveEquationsAndDistributePot`,
lines 2533-2750).  The resolver is decomposed into named pieces mirroring the
source blocks; `resolveEquationsAndDistributePot` assembles them. -/

/-- Card color values used for tie-breaks (ascending order). -/
def colorValue : CardColor → Nat
  | .dark => 0
  | .bronze => 1
  | .silver => 2
  | .gold => 3

/-- The color values of a player's number cards, in hand order. -/
def numberColorRanks (p : Player) : List Nat :=
  p.cards.filterMap fun c =>
    match c with
    | Card.number _ color => some (colorValue color)
    | Card.operation _ => none

/-- `Math.min(...l)`: `none` models the `Infinity` produced on an empty list. -/
def jsMinNat (l : List Nat) : Option Nat :=
  l.foldr (fun x acc => match acc with
    | none => some x
    | some y => some (Nat.min x y)) none

/-- `Math.max(...l)`: `none` models the `-Infinity` produced on an empty list. -/
def jsMaxNat (l : List Nat) : Option Nat :=
  l.foldr (fun x acc => match acc with
    | none => some x
    | some y => some (Nat.max x y)) none

/-- `aMinCard` of the small tie-break: least color value among number cards. -/
def minCardKey (p : Player) : Option Nat := jsMinNat (numberColorRanks p)

/-- `aMaxCard` of the big tie-break: greatest color value among number cards. -/
def maxCardKey (p : Player) : Option Nat := jsMaxNat (numberColorRanks p)

/-- `a < b` where `none` stands for `Infinity`. -/
def ltInf : Option Nat → Option Nat → Bool
  | some x, some y => x < y
  | some _, none => true
  | none, _ => false

/-- `a > b` where `none` stands for `-Infinity`. -/
def gtNegInf : Option Nat → Option Nat → Bool
  | some x, some y => y < x
  | some _, none => true
  | none, _ => false

/-- One comparison step of the small-tie-break `reduce`. -/
def pickSmallWinner (a b : Player) : Player :=
  if ltInf (minCardKey a) (minCardKey b) then a else b

/-- One comparison step of the big-tie-break `reduce`. -/
def pickBigWinner (a b : Player) : Player :=
  if gtNegInf (maxCardKey a) (maxCardKey b) then a else b

/-- `list.reduce(pick)` (no initial value): `none` only on the empty list,
which the source guards with a length check. -/
def reduceWinner (pick : Player → Player → Player) : List Player → Option Player
  | [] => none
  | h :: t => some (t.foldl pick h)

/-- A collected per-player result row (the `results` array). -/
structure ResolveEntry where
  player : Player
  small : Option JsNum
  big : Option JsNum
deriving DecidableEq

/-- Truthiness of an optional string (`if (expr)`): absent or empty is falsy. -/
def truthyStr : Option String → Bool
  | some s => s ≠ ""
  | none => false

/-- The evaluated small expression of a player, with its source text, when the
bet type covers the small target and evaluation succeeds. -/
def smallResultOf (p : Player) : Option (String × JsNum) :=
  if p.betType = some .small ∨ p.betType = some .both then
    match p.submittedEquations.bind (·.small) with
    | some expr =>
      if expr = "" then none
      else (safeEval expr).map (fun v => (expr, v))
    | none => none
  else none

/-- The evaluated big expression of a player, when applicable. -/
def bigResultOf (p : Player) : Option (String × JsNum) :=
  if p.betType = some .big ∨ p.betType = some .both then
    match p.submittedEquations.bind (·.big) with
    | some expr =>
      if expr = "" then none
      else (safeEval expr).map (fun v => (expr, v))
    | none => none
  else none

/-- The contestants of the resolution: non-folded players with a truthy
bet-type selection. -/
def contestants (g : GameState) : List Player :=
  g.players.filter (fun p => ¬p.isFolded ∧ p.betType ≠ none)

/-- The `results` array collected by the first loop of the resolver. -/
def resolveResults (g : GameState) : List ResolveEntry :=
  (contestants g).map fun p =>
    { player := p
      small := (smallResultOf p).map Prod.snd
      big := (bigResultOf p).map Prod.snd }

/-- The `equationResults` table stored for client display. -/
def resolveEquationTable (g : GameState) : List EquationResultEntry :=
  (contestants g).map fun p =>
    { playerId := p.id
      playerName := p.name
      betType := p.betType.getD .notSelected
      small := smallResultOf p
      big := bigResultOf p }

def allSmallOf (g : GameState) : Bool :=
  (resolveResults g).all (fun r => r.player.betType = some .small)

def allBigOf (g : GameState) : Bool :=
  (resolveResults g).all (fun r => r.player.betType = some .big)

/-- First pass of the winner search: fold collecting the players achieving the
least absolute difference to `target` among the valid results selected by
`get`; the running minimum starts at `Infinity` (`none`). -/
def tieFold (target : JsNum) (get : ResolveEntry → Option JsNum)
    (results : List ResolveEntry) : List Player :=
  (results.foldl (fun (st : Option JsNum × List Player) r =>
    match get r with
    | some v =>
      let d := jabs (jsub v target)
      match st.1 with
      | none => (some d, [r.player])
      | some m =>
        if jlt d m then (some d, [r.player])
        else if jeqv d m then (some m, st.2 ++ [r.player])
        else st
    | none => st) (none, [])).2

def smallWinnersOf (g : GameState) : List Player :=
  tieFold (JsNum.ofNat 1) (·.small) (resolveResults g)

def bigWinnersOf (g : GameState) : List Player :=
  tieFold (JsNum.ofNat 20) (·.big) (resolveResults g)

def smallWinnerOf (g : GameState) : Option Player :=
  reduceWinner pickSmallWinner (smallWinnersOf g)

def bigWinnerOf (g : GameState) : Option Player :=
  reduceWinner pickBigWinner (bigWinnersOf g)

/-- Players who bet `both`, had a valid result for a target, and are not that
target's winner (the forfeiting "bet both" losers). -/
def bothBetLosersOf (g : GameState) : List Player :=
  let sw := smallWinnerOf g
  let bw := bigWinnerOf g
  ((resolveResults g).filter (fun r => r.player.betType = some .both)).filterMap
    fun r =>
      let lostSmall := r.small.isSome && (match sw with
        | some w => w.id ≠ r.player.id
        | none => false)
      let lostBig := r.big.isSome && (match bw with
        | some w => w.id ≠ r.player.id
        | none => false)
      if lostSmall || lostBig then some r.player else none

/-- Apply `f` to the first player with the given id (mutation of the aliased
player object found by `find`). -/
def updatePlayer (ps : List Player) (pid : String) (f : Player → Player) : List Player :=
  match ps with
  | [] => []
  | p :: rest => if p.id = pid then f p :: rest else p :: updatePlayer rest pid f

def addChipsF (amount : Int) (p : Player) : Player :=
  { p with chips := p.chips + amount }

/-- `player.chips -= amount; player.bet += amount` (the shared mutation of
`handleBet` and `handleCall`). -/
def betUpd (amount : Int) (q : Player) : Player :=
  { q with chips := q.chips - amount, bet := q.bet + amount }

def addChips (g : GameState) (pid : String) (amount : Int) : GameState :=
  { g with players := updatePlayer g.players pid (addChipsF amount) }

/-- `smallWinner.chips += game.pot; game.winners.small = [smallWinner.id]`. -/
def potAllToSmall (g : GameState) (w : Player) : GameState :=
  { (addChips g w.id g.pot) with
      winners := { small := [w.id], big := g.winners.big } }

/-- `bigWinner.chips += game.pot; game.winners.big = [bigWinner.id]`. -/
def potAllToBig (g : GameState) (v : Player) : GameState :=
  { (addChips g v.id g.pot) with
      winners := { small := g.winners.small, big := [v.id] } }

/-- The mixed-scenario branch: forfeiture by a "bet both" loser sends the whole
pot to the small winner if not disqualified, else to the big winner if not
disqualified, else to nobody; with no forfeiture the pot is split
`floor`/`ceil`. -/
def mixedCase (g : GameState) (sw bw : Option Player) (losers : List Player) : GameState :=
  if losers ≠ [] then
    match sw with
    | some w =>
      if losers.all (fun p => p.id ≠ w.id) then potAllToSmall g w
      else
        match bw with
        | some v => if losers.all (fun p => p.id ≠ v.id) then potAllToBig g v else g
        | none => g
    | none =>
      match bw with
      | some v => if losers.all (fun p => p.id ≠ v.id) then potAllToBig g v else g
      | none => g
  else
    let g1 := match sw with
      | some w =>
        { (addChips g w.id (g.pot.fdiv 2)) with
            winners := { small := [w.id], big := g.winners.big } }
      | none => g
    match bw with
    | some v =>
      { (addChips g1 v.id ((g.pot + 1).fdiv 2)) with
          winners := { small := g1.winners.small, big := [v.id] } }
    | none => g1

/-- The pot-distribution priority chain of the resolver. -/
def distributePot (g : GameState) (sw bw : Option Player) (losers : List Player)
    (aSmall aBig : Bool) : GameState :=
  match sw, bw with
  | some w, some v =>
    if aSmall then potAllToSmall g w
    else if aBig then potAllToBig g v
    else if w.id = v.id then
      let g1 := addChips g w.id g.pot
      { g1 with winners := { small := [w.id], big := [v.id] } }
    else mixedCase g (some w) (some v) losers
  | some w, none =>
    if aSmall then potAllToSmall g w
    else mixedCase g (some w) none losers
  | none, some v =>
    if aBig then potAllToBig g v
    else mixedCase g none (some v) losers
  | none, none => mixedCase g none none losers

/-- `resolveEquationsAndDistributePot` (lines 2533-2750): store the equation
table, distribute the pot, clear the pot. -/
def resolveEquationsAndDistributePot (g : GameState) : GameState :=
  let g1 := { g with equationResults := some (resolveEquationTable g) }
  let g2 := distributePot g1 (smallWinnerOf g) (bigWinnerOf g)
      (bothBetLosersOf g) (allSmallOf g) (allBigOf g)
  { g2 with pot := 0 }

/-! ## Session state machine (`GameService`, lines 1518-2531) -/

def lookupPlayer (g : GameState) (pid : String) : Option Player :=
  g.players.find? (fun p => p.id = pid)

def setPlayers (g : GameState) (ps : List Player) : GameState :=
  { g with players := ps }

def isBot (pid : String) : Bool := "bot-".data.isPrefixOf pid.data

/-- `Math.min(...l)` over chip balances; `none` models `Infinity` on empty. -/
def jsMinInt (l : List Int) : Option Int :=
  l.foldr (fun x acc => match acc with
    | none => some x
    | some y => some (Min.min x y)) none

/-- `game.players.filter(p => !p.isFolded && p.isActive)`. -/
def activeNonFolded (ps : List Player) : List Player :=
  ps.filter (fun q => ¬q.isFolded ∧ q.isActive)

def countNumberCards (p : Player) : Nat :=
  (p.cards.filter fun c =>
    match c with
    | Card.number _ _ => true
    | Card.operation _ => false).length

/-- `player.isFolded = true; player.isActive = false`. -/
def foldDeactivate (q : Player) : Player :=
  { q with isFolded := true, isActive := false }

/-- `checkPlayerElimination` (lines 1980-2001): a player at zero chips is
folded and deactivated; if at most one active non-folded player remains and
one exists, that player wins both targets, takes the pot and the game ends
(with zero remaining, nothing further happens). -/
def checkPlayerElimination (g : GameState) (pid : String) : GameState :=
  match lookupPlayer g pid with
  | none => g
  | some p =>
    if p.chips ≤ 0 then
      let g1 := setPlayers g (updatePlayer g.players pid foldDeactivate)
      let actives := activeNonFolded g1.players
      if actives.length ≤ 1 then
        match actives with
        | w :: _ =>
          let g2 := addChips g1 w.id g1.pot
          { g2 with winners := { small := [w.id], big := [w.id] }, phase := .ended }
        | [] => g1
      else g1
    else g

/-- `deck.pop()`: detach the last element. -/
def popLast? : List Card → Option (Card × List Card)
  | [] => none
  | [c] => some (c, [])
  | c :: rest =>
    match popLast? rest with
    | some (x, r) => some (x, c :: r)
    | none => none

/-- Outcome of the per-player dealing `while` loop. -/
inductive PlayerDealOutcome
  | finished (p : Player) (deck : List Card) (k : Nat)
  | interrupt (p : Player) (deck : List Card) (k : Nat)
  | deckEmpty (p : Player) (deck : List Card) (k : Nat)
deriving DecidableEq

/-- The per-player `while` loop of `dealCards` (lines 2286-2370): draw from the
deck end until the player holds `target` number cards.  A squareRoot draw joins
the hand and sets the lookahead flag; a multiply draw is discarded when
duplicate or under the squareRoot flag, interrupts dealing for a human with
operation cards (setting `hasMultiply`), and is auto-swapped for a bot
(`rand k` selecting the discarded operation card); other draws join the hand.
`k` indexes the random draws consumed. -/
def dealPlayerGo (rand : Nat → Nat) (target : Nat) :
    Nat → Nat → List Card → Player → PlayerDealOutcome
  | fuel, k, deck, p =>
    if countNumberCards p < target then
      match popLast? deck with
      | none => PlayerDealOutcome.deckEmpty p deck k
      | some (card, deck2) =>
        match fuel with
        | 0 => PlayerDealOutcome.deckEmpty p deck k
        | fuel + 1 =>
          match card with
          | Card.operation .squareRoot =>
            dealPlayerGo rand target fuel k deck2
              { p with isSquareRoot := true, cards := p.cards ++ [card] }
          | Card.operation .multiply =>
            if p.cards.contains (Card.operation .multiply) || p.hasMultiply then
              dealPlayerGo rand target fuel k deck2 p
            else if p.isSquareRoot then
              dealPlayerGo rand target fuel k deck2 p
            else if 0 < p.operationCards.length ∧ ¬isBot p.id then
              PlayerDealOutcome.interrupt { p with hasMultiply := true } deck2 k
            else if isBot p.id then
              let idx := rand k % p.operationCards.length
              dealPlayerGo rand target fuel (k + 1) deck2
                { p with operationCards := p.operationCards.eraseIdx idx,
                         cards := p.cards ++ [card], isSquareRoot := false }
            else
              dealPlayerGo rand target fuel k deck2
                { p with cards := p.cards ++ [card], isSquareRoot := false }
          | _ =>
            dealPlayerGo rand target fuel k deck2
              { p with cards := p.cards ++ [card], isSquareRoot := false }
    else PlayerDealOutcome.finished p deck k

/-- The loop above entered with fuel equal to the deck size; each iteration
pops one card, so the fuel cut-off is never reached and the recursion is
faithful to the source `while` loop. -/
def dealPlayerLoop (rand : Nat → Nat) (target : Nat) (k : Nat) (deck : List Card)
    (p : Player) : PlayerDealOutcome :=
  dealPlayerGo rand target deck.length k deck p

/-- Outcome of the `for` loop over players in `dealCards`: `stopped` models the
early `return` taken on an interrupt or an exhausted deck. -/
inductive DealPassResult
  | done (players : List Player) (deck : List Card) (k : Nat)
  | stopped (players : List Player) (deck : List Card) (k : Nat)
deriving DecidableEq

def dealPass (rand : Nat → Nat) (target : Nat) :
    Nat → List Card → List Player → DealPassResult
  | k, deck, [] => .done [] deck k
  | k, deck, p :: rest =>
    match dealPlayerLoop rand target k deck p with
    | .finished p2 deck2 k2 =>
      match dealPass rand target k2 deck2 rest with
      | .done ps d k3 => .done (p2 :: ps) d k3
      | .stopped ps d k3 => .stopped (p2 :: ps) d k3
    | .interrupt p2 deck2 k2 => .stopped (p2 :: rest) deck2 k2
    | .deckEmpty p2 deck2 k2 => .stopped (p2 :: rest) deck2 k2

/-- The defensive retry branch: every player's cards are popped off one at a
time and only multiply cards are unshifted back onto the deck front (number
and squareRoot cards are dropped). -/
def stripGo : Nat → List Card → List Card → List Card
  | _, [], deck => deck
  | 0, _, deck => deck
  | fuel + 1, cards, deck =>
    match popLast? cards with
    | none => deck
    | some (c, rest) =>
      stripGo fuel rest (if c = Card.operation .multiply then c :: deck else deck)

def stripLoop (cards deck : List Card) : List Card :=
  stripGo cards.length cards deck

def retryStrip (g : GameState) : GameState :=
  let folded := g.players.foldl
    (fun (acc : List Player × List Card) p =>
      (acc.1 ++ [{ p with cards := [] }], stripLoop p.cards acc.2))
    ([], g.deck)
  { g with players := folded.1, deck := folded.2 }

/-- The phase-advance section at the end of `dealCards` (lines 2403-2435). -/
def advanceAfterDeal (g : GameState) : GameState :=
  if g.players.any (·.hasMultiply) then g
  else if g.phase = .dealing1 then
    if g.players.all (fun p => 2 ≤ countNumberCards p) then
      { g with phase := .betting1 }
    else g
  else if g.phase = .dealing2 then
    if g.players.all (fun p => 4 ≤ countNumberCards p) then
      let ps := g.players.map (fun p => { p with bet := 0 })
      let g1 := { g with phase := Phase.betting2, currentBet := 0, players := ps }
      match g1.players.find? (fun p => ¬p.isFolded) with
      | some w => { g1 with currentPlayer := w.id }
      | none => g1
    else g
  else g

/-- `dealCards` (lines 2275-2439).  `fuel` bounds only the defensive retry
recursion (dead code under the dealing invariants; on exhaustion the state is
returned as is).  Each invocation consumes `rand` from index 0; theorems
quantify over `rand`, so this loses no generality. -/
def dealCards (rand : Nat → Nat) (fuel : Nat) (g : GameState) (target : Nat)
    (requireExact : Bool) : GameState :=
  match dealPass rand target 0 g.deck g.players with
  | .stopped ps d _ => { g with players := ps, deck := d }
  | .done ps d _ =>
    let g1 := { g with players := ps, deck := d }
    let allHave := g1.players.all
      (fun p => p.hasMultiply || countNumberCards p = target)
    if requireExact && !allHave then
      if g1.players.any (·.hasMultiply) then g1
      else
        match fuel with
        | 0 => g1
        | fuel + 1 => dealCards rand fuel (retryStrip g1) target requireExact
    else advanceAfterDeal g1

/-- `endGame` (lines 2527-2531): resolve, then mark the session ended. -/
def endGame (g : GameState) : GameState :=
  { (resolveEquationsAndDistributePot g) with phase := .ended }

/-- `advanceGamePhase` (lines 2231-2267). -/
def advanceGamePhase (rand : Nat → Nat) (fuel : Nat) (g : GameState) : GameState :=
  match g.phase with
  | .preflop => dealCards rand fuel { g with phase := .dealing1 } 2 true
  | .betting1 => dealCards rand fuel { g with phase := .dealing2 } 4 true
  | .betting2 =>
    let g1 := { g with phase := .equation }
    match g1.players.find? (fun p => ¬p.isFolded) with
    | some w => { g1 with currentPlayer := w.id }
    | none => g1
  | .equation => endGame g
  | _ => g

/-- Index of the next non-folded active player after position `i`, scanning
cyclically; `none` when no player qualifies, in which case the source `while`
loop never terminates (modelled as a stutter by the caller). -/
def nextActiveIdx (players : List Player) (i : Nat) : Option Nat :=
  ((List.range players.length).map (fun k => (i + k + 1) % players.length)).find?
    (fun j => match players[j]? with
      | some p => ¬p.isFolded ∧ p.isActive
      | none => false)

/-- `moveToNextPlayer` (lines 2174-2229). -/
def moveToNextPlayer (rand : Nat → Nat) (fuel : Nat) (g : GameState) : GameState :=
  match g.players.findIdx? (fun p => p.id = g.currentPlayer) with
  | none => g
  | some i =>
    match nextActiveIdx g.players i with
    | none => g
    | some nextIdx =>
      let actives := activeNonFolded g.players
      if nextIdx ≤ i ∧ actives.all (fun p => p.bet = g.currentBet) ∧
         (g.phase = .preflop ∨ g.phase = .betting1 ∨ g.phase = .betting2) then
        advanceGamePhase rand fuel g
      else
        match g.players[nextIdx]? with
        | some np => { g with currentPlayer := np.id }
        | none => g

/-- `handleBet` (lines 1937-1978). -/
def handleBet (rand : Nat → Nat) (fuel : Nat) (g : GameState) (pid : String)
    (amount : Int) : Except String GameState :=
  match lookupPlayer g pid with
  | none => .error "Player not found"
  | some p =>
    if amount ≤ g.currentBet then .error "Bet must be higher than current bet"
    else if p.chips < amount then .error "Not enough chips"
    else
      let lowest := jsMinInt ((g.players.filter (fun q => ¬q.isFolded)).map (·.chips))
      let exceedsLowest : Bool := match lowest with
        | some m => m < amount
        | none => false
      if exceedsLowest then
        .error "Cannot bet more than the lowest chip player amount"
      else
        let ps := updatePlayer g.players pid (betUpd amount)
        let g1 := { g with players := ps, pot := g.pot + amount, currentBet := amount }
        let g2 := checkPlayerElimination g1 pid
        .ok (moveToNextPlayer rand fuel g2)

/-- `handleCall` (lines 2003-2068). -/
def handleCall (rand : Nat → Nat) (fuel : Nat) (g : GameState) (pid : String) :
    Except String GameState :=
  match lookupPlayer g pid with
  | none => .error "Player not found"
  | some p =>
    let callAmount := g.currentBet - p.bet
    if p.chips < callAmount then .error "Not enough chips"
    else
      let ps := updatePlayer g.players pid (betUpd callAmount)
      let g1 := { g with players := ps, pot := g.pot + callAmount }
      let g2 := checkPlayerElimination g1 pid
      let isSinglePlayerMode := g2.players.length = 2 ∧
        g2.players.any (fun q => isBot q.id) ∧ g2.players.any (fun q => ¬isBot q.id)
      if isSinglePlayerMode ∧ ¬isBot pid ∧ 0 < callAmount ∧ g2.phase = .betting1 then
        .ok (advanceGamePhase rand fuel g2)
      else
        .ok (moveToNextPlayer rand fuel g2)

/-- `handleFold` (lines 2070-2099). -/
def handleFold (rand : Nat → Nat) (fuel : Nat) (g : GameState) (pid : String) :
    GameState :=
  let g1 := setPlayers g
    (updatePlayer g.players pid (fun q => { q with isFolded := true }))
  let nonFolded := g1.players.filter (fun q => ¬q.isFolded)
  if nonFolded.length ≤ 1 then
    match nonFolded with
    | w :: _ =>
      let g2 := addChips g1 w.id g1.pot
      { g2 with winners := { small := [w.id], big := [w.id] }, phase := .ended }
    | [] => moveToNextPlayer rand fuel g1
  else moveToNextPlayer rand fuel g1

/-- `handleBetType` (lines 2101-2114). -/
def handleBetType (g : GameState) (pid : String) (bt : BetType) :
    Except String GameState :=
  if g.phase ≠ .equation then
    .error "Can only select bet type during equation phase"
  else
    .ok (setPlayers g
      (updatePlayer g.players pid (fun q => { q with betType := some bt })))

/-- `continueDealing` (lines 2155-2172). -/
def continueDealing (rand : Nat → Nat) (fuel : Nat) (g : GameState) : GameState :=
  if g.phase = .dealing1 then dealCards rand fuel g 2 true
  else if g.phase = .dealing2 then dealCards rand fuel g 4 true
  else g

/-- `handleSwap` (lines 2116-2153): exchange the named starting operator for
the multiply card, clear the pending flag, resume dealing. -/
def handleSwap (rand : Nat → Nat) (fuel : Nat) (g : GameState) (pid : String)
    (swapType : OperationType) : Except String GameState :=
  match lookupPlayer g pid with
  | none => .error "Player not found"
  | some p =>
    match p.operationCards.findIdx? (fun o => o = swapType) with
    | none => .error "Card type not found in operation cards"
    | some idx =>
      let swapIn : Player → Player := fun q =>
        { q with operationCards := q.operationCards.eraseIdx idx,
                 cards := q.cards ++ [Card.operation .multiply], hasMultiply := false }
      let g1 := setPlayers g (updatePlayer g.players pid swapIn)
      .ok (continueDealing rand fuel g1)

/-- Whether a player has completed every submission its bet type requires
(one conjunct of `allSubmitted`). -/
def submittedAllFor (p : Player) : Bool :=
  if p.isFolded ∨ ¬p.isActive then true
  else match p.betType with
    | some .both =>
      truthyStr (p.submittedEquations.bind (·.small)) &&
      truthyStr (p.submittedEquations.bind (·.big))
    | some .small => truthyStr (p.submittedEquations.bind (·.small))
    | some .big => truthyStr (p.submittedEquations.bind (·.big))
    | _ => false

/-- `performAction` (lines 1763-1935). -/
def performAction (rand : Nat → Nat) (fuel : Nat) (g : GameState)
    (a : GameAction) : Except String GameState :=
  match lookupPlayer g a.playerId with
  | none => .error "Player not found"
  | some player =>
    if player.id ≠ g.currentPlayer ∧ g.phase ≠ .equation ∧ a.type ≠ .swapCard ∧
       g.phase ≠ .dealing1 ∧ g.phase ≠ .dealing2 then
      .error "Not your turn"
    else
      let isBettingPhase :=
        g.phase = .betting1 ∨ g.phase = .betting2 ∨ g.phase = .preflop
      let isEquationPhase := g.phase = .equation
      let isDealingPhase := g.phase = .dealing1 ∨ g.phase = .dealing2 ∨
        g.players.any (·.hasMultiply)
      let isBettingAction := a.type = .bet ∨ a.type = .call ∨ a.type = .fold ∨
        a.type = .continueAction
      if ¬isBettingPhase ∧ isBettingAction then
        .error "Betting actions are only allowed during betting phases"
      else if isDealingPhase ∧ isBettingAction then
        .error "Betting actions are not allowed during dealing phase"
      else if ¬isEquationPhase ∧ a.type = .selectBetType then
        .error "Bet type selection is only allowed during equation phase"
      else
        match a.type with
        | .continueAction =>
          if (g.players.filter (fun p => ¬p.isFolded)).all
              (fun p => p.bet = g.currentBet) then
            .ok (advanceGamePhase rand fuel g)
          else
            .error "Cannot continue until all players have matched the current bet"
        | .bet =>
          match a.amount with
          | none => .error "Bet amount is required"
          | some amt => handleBet rand fuel g a.playerId amt
        | .call => handleCall rand fuel g a.playerId
        | .fold => .ok (handleFold rand fuel g a.playerId)
        | .selectBetType =>
          match a.betType with
          | none => .error "Bet type is required"
          | some bt => handleBetType g a.playerId bt
        | .submitEquation =>
          if ¬isEquationPhase then
            .error "Equation submission is only allowed during equation phase"
          else
            match a.equations with
            | none => .error "Equations are required"
            | some eqs =>
              let okShape : Except String Unit :=
                match player.betType with
                | some .both =>
                  if truthyStr eqs.small && truthyStr eqs.big then .ok ()
                  else .error "Both small and big equations are required when betting both"
                | some .small =>
                  if truthyStr eqs.small then .ok ()
                  else .error "Small equation is required when betting small"
                | some .big =>
                  if truthyStr eqs.big then .ok ()
                  else .error "Big equation is required when betting big"
                | _ => .error "Bet type must be selected before submitting equations"
              match okShape with
              | .error e => .error e
              | .ok _ =>
                let g1 := setPlayers g (updatePlayer g.players a.playerId
                  (fun q => { q with submittedEquations := some eqs }))
                if g1.players.all submittedAllFor then
                  .ok (advanceGamePhase rand fuel (resolveEquationsAndDistributePot g1))
                else .ok g1
        | .swapCard =>
          match a.swapCardType with
          | none => .error "Swap card type is required"
          | some t => handleSwap rand fuel g a.playerId t
        | .noSwap =>
          let g1 := setPlayers g (updatePlayer g.players a.playerId
            (fun q => { q with hasMultiply := false }))
          let g2 := continueDealing rand fuel g1
          if g2.phase = .dealing1 ∧
             g2.players.all (fun p => 2 ≤ countNumberCards p) then
            .ok { g2 with phase := Phase.betting1 }
          else if g2.phase = .dealing2 ∧
             g2.players.all (fun p => 4 ≤ countNumberCards p) then
            let ps := g2.players.map (fun p => { p with bet := 0 })
            .ok { g2 with phase := Phase.betting2, currentBet := 0, players := ps }
          else .ok g2
        | .raise => .error "Invalid action"

/-- A freshly synthesized bot player for single-player mode. -/
def botPlayer (chips : Int) : Player :=
  { id := "bot-1", name := "Bot Player", chips := chips, cards := []
    operationCards := [.add, .subtract, .divide], bet := 0, betType := none
    isActive := true, isFolded := false, submittedEquations := none
    isSquareRoot := false, hasMultiply := false }

/-- The per-player reset performed by `startGame` (chips preserved; note
`isActive` is set, not preserved, and `isSquareRoot` is not reset). -/
def resetPlayer (p : Player) : Player :=
  { p with cards := [], operationCards := [.add, .subtract, .divide]
           bet := 0, betType := none, isActive := true, isFolded := false
           submittedEquations := none, hasMultiply := false }

/-- `startGame` (lines 1621-1677): synthesize a bot in single-player mode, then
reset the session and every player for a new round, preserving chip balances;
`none` models the crash on an empty roster (`players[0].id` of nothing). -/
def startGame (rand : Nat → Nat) (g : GameState) : Option GameState :=
  let g0 := match g.players with
    | [p] => { g with players := [p, botPlayer p.chips] }
    | _ => g
  match g0.players with
  | [] => none
  | first :: _ =>
    some { g0 with
      deck := createDeck rand
      phase := .preflop
      currentPlayer := first.id
      currentBet := 0
      pot := 0
      winners := { small := [], big := [] }
      equationResults := none
      players := g0.players.map resetPlayer }

/-! ## Observation helpers and specification-side definitions -/

def chipsById (g : GameState) (pid : String) : Option Int :=
  (lookupPlayer g pid).map (·.chips)

def betById (g : GameState) (pid : String) : Option Int :=
  (lookupPlayer g pid).map (·.bet)

/-- Total chips held by the players of a session. -/
def sumChips (g : GameState) : Int :=
  (g.players.map (·.chips)).sum

/-- Modelled from the specification wording of the small tie-break ("the
player whose minimum-valued number card has the lowest color rank"): the color
rank of the player's least-valued number card.  Declared only to exhibit how
it diverges from the implemented tie-break key `minCardKey`. -/
def minValuedCardColorRank (p : Player) : Option Nat :=
  let nums := p.cards.filterMap (fun c => match c with
    | Card.number v col => some (v, colorValue col)
    | Card.operation _ => none)
  match nums with
  | [] => none
  | h :: t => some (t.foldl (fun a b => if b.1 < a.1 then b else a) h).2

/-! ## Concrete fixtures -/

def mkPlayer (pid nm : String) (chips : Int) : Player :=
  { id := pid, name := nm, chips := chips, cards := []
    operationCards := [.add, .subtract, .divide], bet := 0, betType := none
    isActive := true, isFolded := false, submittedEquations := none
    isSquareRoot := false, hasMultiply := false }

def mkAction (t : ActionType) (pid : String) : GameAction :=
  { type := t, playerId := pid, amount := none, betType := none
    equations := none, swapCardType := none }

def mkGame (ps : List Player) (pot : Int) (ph : Phase) (cur : String) : GameState :=
  { id := "1", players := ps, deck := [], currentPlayer := cur, pot := pot
    currentBet := 0, phase := ph, round := 1
    winners := { small := [], big := [] }, equationResults := none }

/-- C1 fixture: two small-bettors tied at distance 1 from the target.  Alice
holds a gold 1 and a dark 5 (her least-valued card is gold, but her least
color rank is dark); Bob holds silver 2 and silver 3. -/
def pA1 : Player :=
  { mkPlayer "A" "Alice" 100 with
      cards := [Card.number 1 .gold, Card.number 5 .dark]
      betType := some .small
      submittedEquations := some { small := some "2", big := none } }

def pB1 : Player :=
  { mkPlayer "B" "Bob" 100 with
      cards := [Card.number 2 .silver, Card.number 3 .silver]
      betType := some .small
      submittedEquations := some { small := some "0", big := none } }

def gC1 : GameState := mkGame [pA1, pB1] 10 .equation "A"

/-- C2 fixture: Ann wins small, Ben wins big, Xan bet both with a valid small
result (losing small) and an invalid big expression. -/
def pA2 : Player :=
  { mkPlayer "A" "Ann" 100 with
      cards := [Card.number 4 .gold]
      betType := some .small
      submittedEquations := some { small := some "1", big := none } }

def pB2 : Player :=
  { mkPlayer "B" "Ben" 100 with
      cards := [Card.number 6 .dark]
      betType := some .big
      submittedEquations := some { small := none, big := some "20" } }

def pX2 : Player :=
  { mkPlayer "X" "Xan" 100 with
      cards := [Card.number 7 .bronze]
      betType := some .both
      submittedEquations := some { small := some "2", big := some "5/0" } }

def gC2 : GameState := mkGame [pA2, pB2, pX2] 10 .equation "A"

/-- C3 fixture: the small-bettor's expression fails to evaluate, so no small
winner exists and the split credits only the big side. -/
def pA3 : Player :=
  { mkPlayer "A" "Ada" 100 with
      betType := some .small
      submittedEquations := some { small := some "5/0", big := none } }

def pB3 : Player :=
  { mkPlayer "B" "Bea" 100 with
      betType := some .big
      submittedEquations := some { small := none, big := some "20" } }

def gC3 : GameState := mkGame [pA3, pB3] 100 .equation "A"

/-- C4 fixture: the acting player already has a 10-chip bet standing and
raises to 30 over a current bet of 20. -/
def pA4 : Player := { mkPlayer "A" "Al" 100 with bet := 10 }

def pB4 : Player := { mkPlayer "B" "Bo" 100 with bet := 20 }

def gC4 : GameState := { mkGame [pA4, pB4] 30 .preflop "A" with currentBet := 20 }

def actC4 : GameAction := { mkAction .bet "A" with amount := some 30 }

/-- C5 fixture: a betting phase where it is not Bobbie's turn and Bobbie has
no pending multiply interrupt. -/
def pA5 : Player := mkPlayer "A" "Ace" 100

def pB5 : Player := mkPlayer "B" "Bobbie" 100

def gC5 : GameState := mkGame [pA5, pB5] 0 .betting1 "A"

def actC5 : GameAction := { mkAction .swapCard "B" with swapCardType := some .add }

/-- C8 fixture: the eliminated player is the last active non-folded one (one
opponent disconnected without folding, the other folded). -/
def pA8 : Player := { mkPlayer "A" "Amy" 100 with chips := 0, bet := 50 }

def pB8 : Player := { mkPlayer "B" "Bud" 200 with isActive := false }

def pC8 : Player := { mkPlayer "C" "Cal" 300 with isFolded := true }

def gC8 : GameState := { mkGame [pA8, pB8, pC8] 50 .betting1 "A" with currentBet := 50 }

/-- C9 fixture: an eliminated (inactive, folded) player alongside an active
one, before a restart. -/
def pA9 : Player := { mkPlayer "A" "Abe" 77 with isActive := false, isFolded := true }

def pB9 : Player := mkPlayer "B" "Bix" 300

def gC9 : GameState := mkGame [pA9, pB9] 0 .ended "B"

/-! ## Claim counterexamples and confirmations (closed statements) -/

/-- C1 counterexample: in a small-target tie, the resolver picks Alice, whose
least color rank over all number cards is dark (0), although her
minimum-valued number card is gold (rank 3) while Bob's is silver (rank 2) —
so the player whose minimum-valued card has the lowest color rank (Bob) does
not win, refuting the claim as stated. -/
theorem smallTieBreakIgnoresCardValuesCex :
    smallWinnersOf gC1 = [pA1, pB1] ∧
    (resolveEquationsAndDistributePot gC1).winners.small = ["A"] ∧
    minValuedCardColorRank pA1 = some 3 ∧
    minValuedCardColorRank pB1 = some 2 ∧
    minCardKey pA1 = some 0 ∧
    minCardKey pB1 = some 2 := by decide

/-- C2 counterexample: Xan bet both, has a valid small result and is not the
small winner, so by the claim the big winner Ben should take the entire pot;
the resolver instead pays the whole pot to the small winner Ann and Ben
receives nothing. -/
theorem bothBetForfeitSmallPriorityCex :
    (bothBetLosersOf gC2).map (·.id) = ["X"] ∧
    (smallWinnerOf gC2).map (·.id) = some "A" ∧
    (bigWinnerOf gC2).map (·.id) = some "B" ∧
    gC2.pot = 10 ∧
    chipsById (resolveEquationsAndDistributePot gC2) "B" = some 100 ∧
    chipsById (resolveEquationsAndDistributePot gC2) "X" = some 100 ∧
    chipsById (resolveEquationsAndDistributePot gC2) "A" = some 110 := by decide

/-- C3 counterexample: with no valid small result there is no small winner,
the split branch credits only `ceil(pot/2)` to the big winner, and half of a
100-chip pot vanishes while the pot is still zeroed. -/
theorem potConservationFailsCex :
    sumChips (resolveEquationsAndDistributePot gC3) ≠ sumChips gC3 + gC3.pot ∧
    sumChips (resolveEquationsAndDistributePot gC3) = sumChips gC3 + 50 ∧
    gC3.pot = 100 ∧
    (resolveEquationsAndDistributePot gC3).pot = 0 := by decide

/-- C4 counterexample: the acting player already has a 10-chip bet standing;
an accepted raise to 30 leaves their round bet at 40 (`bet += amount`), not at
the claimed 30 (`bet = amount`). -/
theorem betAccumulatesCex :
    gC4.phase = .preflop ∧
    gC4.currentPlayer = "A" ∧
    gC4.currentBet = 20 ∧
    betById gC4 "A" = some 10 ∧
    (match performAction (fun _ => 0) 0 gC4 actC4 with
     | .ok s => betById s "A"
     | .error _ => none) = some 40 := by decide

/-- C5 counterexample: during a betting phase, a `swapCard` action from a
player who is not the current player and has no pending multiply interrupt is
accepted and changes state (the named starting operator is exchanged for a
multiply card), instead of being rejected. -/
theorem swapCardBypassesTurnGateCex :
    gC5.phase = .betting1 ∧
    gC5.currentPlayer = "A" ∧
    actC5.playerId = "B" ∧
    (lookupPlayer gC5 "B").map (·.hasMultiply) = some false ∧
    (match performAction (fun _ => 0) 0 gC5 actC5 with
     | .ok s => (lookupPlayer s "B").map (·.operationCards)
     | .error _ => none) = some [.subtract, .divide] := by decide

/-- C6: the evaluator honours precedence (`2+3*4 = 14`), square root binding
(`sqrt4+5 = 7`), and reports division by zero, emptiness and a dangling square
root as parse failures rather than raising. -/
theorem evaluatorCases :
    safeEval "2+3*4" = some (JsNum.ofNat 14) ∧
    safeEval "sqrt4+5" = some (JsNum.ofNat 7) ∧
    safeEval "5/0" = none ∧
    safeEval "" = none ∧
    safeEval "sqrt" = none := by decide

/-- C8 counterexample: the eliminated player was the last active non-folded
one (an opponent had disconnected without folding, another had folded); no
winner is recorded, no pot is awarded and the phase does not become `ended`,
contrary to the claim for the "at most one" case. -/
theorem eliminationZeroActivesCex :
    chipsById gC8 "A" = some 0 ∧
    ((checkPlayerElimination gC8 "A").players.filter
      (fun q => ¬q.isFolded ∧ q.isActive)).length = 0 ∧
    (checkPlayerElimination gC8 "A").phase = .betting1 ∧
    (checkPlayerElimination gC8 "A").winners.small = [] ∧
    (lookupPlayer (checkPlayerElimination gC8 "A") "A").map
      (fun q => (q.isFolded, q.isActive)) = some (true, false) := by decide

/-- C9 counterexample: restarting the session turns an eliminated player's
`isActive` flag back to `true` instead of leaving the active/eliminated status
unchanged. -/
theorem startGameReactivatesCex :
    (lookupPlayer gC9 "A").map (·.isActive) = some false ∧
    (startGame (fun _ => 0) gC9).map
      (fun s => (lookupPlayer s "A").map (·.isActive)) = some (some true) := by decide

/-! ## Toolkit lemmas about the aliased-player update -/

theorem updatePlayer_find?_self (ps : List Player) (pid : String)
    (f : Player → Player) (hf : ∀ q, (f q).id = q.id) :
    (updatePlayer ps pid f).find? (fun p => p.id = pid) =
      (ps.find? (fun p => p.id = pid)).map f := by
  induction ps with
  | nil => rfl
  | cons a t ih =>
    by_cases h : a.id = pid
    · simp [updatePlayer, h, List.find?_cons, hf a]
    · simp [updatePlayer, h, List.find?_cons, ih]

theorem updatePlayer_find?_ne (ps : List Player) (pid qid : String)
    (f : Player → Player) (hf : ∀ q, (f q).id = q.id) (hne : qid ≠ pid) :
    (updatePlayer ps pid f).find? (fun p => p.id = qid) =
      ps.find? (fun p => p.id = qid) := by
  induction ps with
  | nil => rfl
  | cons a t ih =>
    by_cases h : a.id = pid
    · have hfane : ¬((f a).id = qid) := fun hq => hne (by rw [← hq, hf a, h])
      have hane : ¬(a.id = qid) := fun hq => hne (by rw [← hq, h])
      simp only [updatePlayer, if_pos h]
      rw [List.find?_cons_of_neg _ (by simpa using hfane),
          List.find?_cons_of_neg _ (by simpa using hane)]
    · simp only [updatePlayer, if_neg h]
      by_cases h2 : a.id = qid
      · rw [List.find?_cons_of_pos _ (by simpa using h2),
            List.find?_cons_of_pos _ (by simpa using h2)]
      · rw [List.find?_cons_of_neg _ (by simpa using h2),
            List.find?_cons_of_neg _ (by simpa using h2), ih]

theorem updatePlayer_map_id (ps : List Player) (pid : String)
    (f : Player → Player) (hf : ∀ q, (f q).id = q.id) :
    (updatePlayer ps pid f).map (·.id) = ps.map (·.id) := by
  induction ps with
  | nil => rfl
  | cons a t ih =>
    by_cases h : a.id = pid
    · simp [updatePlayer, h, hf a]
    · simp [updatePlayer, h, ih]

theorem updatePlayer_sum_chips (ps : List Player) (pid : String) (c : Int)
    (hex : pid ∈ ps.map (·.id)) :
    ((updatePlayer ps pid (addChipsF c)).map (·.chips)).sum =
      (ps.map (·.chips)).sum + c := by
  induction ps with
  | nil => simp at hex
  | cons a t ih =>
    by_cases h : a.id = pid
    · simp [updatePlayer, addChipsF, h]
      ring
    · have hex2 : pid ∈ t.map (·.id) := by
        simp only [List.map_cons, List.mem_cons] at hex
        rcases hex with hh | hh
        · exact absurd hh.symm h
        · exact hh
      simp [updatePlayer, addChipsF, h, ih hex2]
      ring

theorem find?_eq_of_nodup_mem (ps : List Player) (w : Player)
    (hnd : (ps.map (·.id)).Nodup) (hm : w ∈ ps) :
    ps.find? (fun p => p.id = w.id) = some w := by
  induction ps with
  | nil => simp at hm
  | cons a t ih =>
    simp only [List.map_cons] at hnd
    rcases List.mem_cons.mp hm with rfl | hmt
    · simp [List.find?_cons]
    · have hne : a.id ≠ w.id := by
        intro he
        have hw : w.id ∈ t.map (fun x => x.id) := List.mem_map_of_mem _ hmt
        rw [← he] at hw
        exact (List.nodup_cons.mp hnd).1 hw
      rw [List.find?_cons_of_neg _ (by simpa using hne)]
      exact ih (List.nodup_cons.mp hnd).2 hmt

/-! ## C5 (amended): the betting-phase turn gate -/

/-- C5 (amended): during a betting phase, any action other than `swapCard`
from a player who is not the current player is rejected with "Not your turn"
(the gate throws before any mutation, so no state change occurs); `swapCard`
is the sole exception, and it needs no pending interrupt (see the
counterexample). -/
theorem bettingPhaseTurnGate (rand : Nat → Nat) (fuel : Nat) (g : GameState)
    (a : GameAction) (p : Player)
    (hph : g.phase = .preflop ∨ g.phase = .betting1 ∨ g.phase = .betting2)
    (hp : lookupPlayer g a.playerId = some p)
    (hturn : p.id ≠ g.currentPlayer)
    (hsw : a.type ≠ .swapCard) :
    performAction rand fuel g a = .error "Not your turn" := by
  unfold performAction
  rw [hp]
  rcases hph with h | h | h <;> rw [h] <;> simp [hturn, hsw]

/-- C5 witness: a `noSwap` from the non-current player during `betting1` is
rejected (even though `noSwap` is the decline half of the swap pair). -/
theorem bettingPhaseTurnGateWitness :
    gC5.phase = .betting1 ∧
    performAction (fun _ => 0) 0 gC5 (mkAction .noSwap "B") = .error "Not your turn" :=
  ⟨by decide,
   bettingPhaseTurnGate (fun _ => 0) 0 gC5 (mkAction .noSwap "B") pB5
     (Or.inr (Or.inl (by decide))) (by decide) (by decide) (by decide)⟩

/-! ## C9 (amended): the restart reset -/

/-- C9 (amended): restarting with at least two players seated resets the
session (fresh deck, phase `preflop`, pot and currentBet 0, winners and
equation table cleared, first player to act) and resets every player's
per-round fields while preserving chips — but sets `isActive := true` for
everyone instead of preserving the active/eliminated status. -/
theorem startGameResets (rand : Nat → Nat) (g : GameState)
    (h2 : 2 ≤ g.players.length) :
    ∃ s, startGame rand g = some s ∧
      s.phase = .preflop ∧ s.pot = 0 ∧ s.currentBet = 0 ∧
      s.winners = { small := [], big := [] } ∧ s.equationResults = none ∧
      s.deck = createDeck rand ∧
      s.players.length = g.players.length ∧
      ∀ (i : Nat) (p0 : Player), g.players[i]? = some p0 →
        ∃ p1 : Player, s.players[i]? = some p1 ∧
          p1.id = p0.id ∧ p1.name = p0.name ∧ p1.chips = p0.chips ∧
          p1.cards = [] ∧ p1.operationCards = [.add, .subtract, .divide] ∧
          p1.bet = 0 ∧ p1.betType = none ∧ p1.isActive = true ∧
          p1.isFolded = false ∧ p1.submittedEquations = none ∧
          p1.hasMultiply = false := by
  obtain ⟨gid, gps, gdeck, gcur, gpot, gcb, gph, grnd, gw, geq⟩ := g
  match gps, h2 with
  | a :: b :: t, _ =>
    refine ⟨_, rfl, ?_, ?_, ?_, ?_, ?_, ?_, ?_, ?_⟩
    case _ => with_reducible rfl
    case _ => with_reducible rfl
    case _ => with_reducible rfl
    case _ => with_reducible rfl
    case _ => with_reducible rfl
    case _ => with_reducible rfl
    case _ =>
      with_reducible show ((a :: b :: t).map resetPlayer).length = (a :: b :: t).length
      rw [List.length_map]
    case _ =>
      intro i p0 hp0
      replace hp0 : (a :: b :: t)[i]? = some p0 := hp0
      refine ⟨resetPlayer p0, ?_, rfl, rfl, rfl, rfl, rfl, rfl, rfl, rfl, rfl, rfl, rfl⟩
      with_reducible show ((a :: b :: t).map resetPlayer)[i]? = some (resetPlayer p0)
      rw [List.getElem?_map, hp0]
      rfl

/-- C9 witness: the amended reset theorem applied to the two-player fixture. -/
theorem startGameResetsWitness :
    2 ≤ gC9.players.length ∧
    ∃ s, startGame (fun _ => 0) gC9 = some s ∧
      s.phase = .preflop ∧ s.pot = 0 ∧ s.currentBet = 0 ∧
      s.winners = { small := [], big := [] } ∧ s.equationResults = none ∧
      s.deck = createDeck (fun _ => 0) ∧
      s.players.length = gC9.players.length ∧
      ∀ (i : Nat) (p0 : Player), gC9.players[i]? = some p0 →
        ∃ p1 : Player, s.players[i]? = some p1 ∧
          p1.id = p0.id ∧ p1.name = p0.name ∧ p1.chips = p0.chips ∧
          p1.cards = [] ∧ p1.operationCards = [.add, .subtract, .divide] ∧
          p1.bet = 0 ∧ p1.betType = none ∧ p1.isActive = true ∧
          p1.isFolded = false ∧ p1.submittedEquations = none ∧
          p1.hasMultiply = false :=
  ⟨by decide, startGameResets (fun _ => 0) gC9 (by decide)⟩

theorem sumChips_addChips (g : GameState) (pid : String) (c : Int)
    (h : pid ∈ g.players.map (·.id)) :
    sumChips (addChips g pid c) = sumChips g + c := by
  unfold sumChips addChips
  exact updatePlayer_sum_chips g.players pid c h

theorem mem_ids_updatePlayer (ps : List Player) (pid : String)
    (f : Player → Player) (qid : String) (hf : ∀ q, (f q).id = q.id)
    (h : qid ∈ ps.map (·.id)) : qid ∈ (updatePlayer ps pid f).map (·.id) := by
  rw [updatePlayer_map_id ps pid f hf]
  exact h

/-- `floor(p/2) + ceil(p/2) = p` for the host `Math.floor`/`Math.ceil` split. -/
theorem fdiv_halves (p : Int) : p.fdiv 2 + (p + 1).fdiv 2 = p := by
  rw [Int.fdiv_eq_ediv _ (by norm_num), Int.fdiv_eq_ediv _ (by norm_num)]
  omega

/-- Chip conservation of the distribution chain whenever both winners exist
and they are not both forfeiters. -/
theorem sumChips_distributePot (g : GameState) (w v : Player) (L : List Player)
    (aS aB : Bool)
    (hwid : w.id ∈ g.players.map (·.id))
    (hvid : v.id ∈ g.players.map (·.id))
    (hnb : L.all (fun q => q.id ≠ w.id) = true ∨
           L.all (fun q => q.id ≠ v.id) = true) :
    sumChips (distributePot g (some w) (some v) L aS aB) = sumChips g + g.pot := by
  by_cases haS : aS = true
  · simp only [distributePot, haS, if_true]
    show sumChips (addChips g w.id g.pot) = sumChips g + g.pot
    exact sumChips_addChips g w.id g.pot hwid
  · have haS2 : aS = false := by
      cases aS with
      | false => rfl
      | true => exact absurd rfl haS
    by_cases haB : aB = true
    · simp only [distributePot, haS2, Bool.false_eq_true, if_false, haB, if_true]
      show sumChips (addChips g v.id g.pot) = sumChips g + g.pot
      exact sumChips_addChips g v.id g.pot hvid
    · have haB2 : aB = false := by
        cases aB with
        | false => rfl
        | true => exact absurd rfl haB
      simp only [distributePot, haS2, haB2, Bool.false_eq_true, if_false]
      by_cases heq : w.id = v.id
      · rw [if_pos heq]
        show sumChips (addChips g w.id g.pot) = sumChips g + g.pot
        exact sumChips_addChips g w.id g.pot hwid
      · rw [if_neg heq]
        unfold mixedCase
        by_cases hL : L = []
        · subst hL
          simp only [ne_eq, not_true_eq_false, if_false]
          have hvin : v.id ∈ (updatePlayer g.players w.id
              (addChipsF (g.pot.fdiv 2))).map (·.id) :=
            mem_ids_updatePlayer _ _ _ _ (fun _ => rfl) hvid
          have h1 : sumChips (addChips g w.id (g.pot.fdiv 2)) =
              sumChips g + g.pot.fdiv 2 :=
            sumChips_addChips g w.id (g.pot.fdiv 2) hwid
          have h2 : sumChips (addChips ({ (addChips g w.id (g.pot.fdiv 2)) with winners := { small := [w.id], big := g.winners.big } } : GameState) v.id ((g.pot + 1).fdiv 2)) = sumChips ({ (addChips g w.id (g.pot.fdiv 2)) with winners := { small := [w.id], big := g.winners.big } } : GameState) + (g.pot + 1).fdiv 2 :=
            sumChips_addChips _ v.id _ hvin
          have h3 : sumChips ({ (addChips g w.id (g.pot.fdiv 2)) with winners := { small := [w.id], big := g.winners.big } } : GameState) = sumChips g + g.pot.fdiv 2 := h1
          show sumChips (addChips ({ (addChips g w.id (g.pot.fdiv 2)) with winners := { small := [w.id], big := g.winners.big } } : GameState) v.id ((g.pot + 1).fdiv 2)) = sumChips g + g.pot
          rw [h2, h3]
          have h4 := fdiv_halves g.pot
          omega
        · rw [if_pos hL]
          show sumChips
            (if (L.all fun p => decide (p.id ≠ w.id)) = true then potAllToSmall g w
             else if (L.all fun p => decide (p.id ≠ v.id)) = true then potAllToBig g v
             else g) = sumChips g + g.pot
          by_cases hLw : L.all (fun q => q.id ≠ w.id) = true
          · rw [if_pos hLw]
            show sumChips (addChips g w.id g.pot) = sumChips g + g.pot
            exact sumChips_addChips g w.id g.pot hwid
          · rw [if_neg hLw]
            have hLv : L.all (fun q => q.id ≠ v.id) = true := by
              rcases hnb with h | h
              · exact absurd h hLw
              · exact h
            rw [if_pos hLv]
            show sumChips (addChips g v.id g.pot) = sumChips g + g.pot
            exact sumChips_addChips g v.id g.pot hvid

/-! ## C7: deck composition is preserved by the Fisher-Yates shuffle -/

theorem count_set_add (a : Card) : ∀ (l : List Card) (i : Nat) (x : Card),
    i < l.length →
    (l.set i x).count a + (if l[i]! = a then 1 else 0) =
      l.count a + (if x = a then 1 else 0)
  | [], i, x, h => by simp at h
  | c :: t, 0, x, _ => by
    simp only [List.set, List.count_cons, List.getElem!_cons_zero, beq_iff_eq]
    generalize (if x = a then 1 else 0) = cx
    generalize (if c = a then 1 else 0) = cc
    omega
  | c :: t, i + 1, x, h => by
    have ih := count_set_add a t i x (by simpa using h)
    simp only [List.set, List.count_cons, List.getElem!_cons_succ, beq_iff_eq]
    generalize hx : (if x = a then 1 else 0) = cx at ih ⊢
    generalize hc : (if c = a then 1 else 0) = cc
    generalize hti : (if t[i]! = a then 1 else 0) = ct at ih ⊢
    omega

theorem count_listSwap (l : List Card) (i j : Nat) (a : Card) :
    (listSwap l i j).count a = l.count a := by
  unfold listSwap
  cases hi : l[i]? with
  | none => rfl
  | some x =>
    cases hj : l[j]? with
    | none => rfl
    | some y =>
      show ((l.set i y).set j x).count a = l.count a
      have hilt : i < l.length := by
        by_contra hcon
        rw [List.getElem?_eq_none (by omega)] at hi
        exact absurd hi (by simp)
      have hjlt : j < l.length := by
        by_contra hcon
        rw [List.getElem?_eq_none (by omega)] at hj
        exact absurd hj (by simp)
      have hix : l[i]! = x := List.getElem!_of_getElem? hi
      have hA := count_set_add a l i y hilt
      have hB := count_set_add a (l.set i y) j x (by simpa using hjlt)
      rw [hix] at hA
      by_cases hij : j = i
      · subst hij
        have hxy : x = y := Option.some.inj (hi.symm.trans hj)
        have hsetj : (l.set j y)[j]! = y :=
          List.getElem!_of_getElem? (List.getElem?_set_self hjlt)
        rw [hsetj] at hB
        subst hxy
        generalize hgx : (if x = a then 1 else 0) = cx at hA hB
        omega
      · have hsetj : (l.set i y)[j]! = y := by
          refine List.getElem!_of_getElem? ?_
          rw [List.getElem?_set_ne (fun he => hij he.symm)]
          exact hj
        rw [hsetj] at hB
        generalize hgx : (if x = a then 1 else 0) = cx at hA hB
        generalize hgy : (if y = a then 1 else 0) = cy at hA hB
        omega

theorem length_listSwap (l : List Card) (i j : Nat) :
    (listSwap l i j).length = l.length := by
  unfold listSwap
  cases l[i]? with
  | none => rfl
  | some x =>
    cases l[j]? with
    | none => rfl
    | some y => simp

theorem count_fisherYates (rand : Nat → Nat) (a : Card) :
    ∀ (n : Nat) (l : List Card), (fisherYates rand n l).count a = l.count a
  | 0, l => rfl
  | n + 1, l => by
    rw [fisherYates, count_fisherYates rand a n, count_listSwap]

theorem length_fisherYates (rand : Nat → Nat) :
    ∀ (n : Nat) (l : List Card), (fisherYates rand n l).length = l.length
  | 0, l => rfl
  | n + 1, l => by
    rw [fisherYates, length_fisherYates rand n, length_listSwap]

/-- C7: every deck the builder produces holds, whatever the shuffle draws,
exactly one number card per value 0..10 and color, four multiply and four
squareRoot cards, and 52 cards in total (so nothing else); the shuffle only
permutes this fixed multiset. -/
theorem createDeckComposition (rand : Nat → Nat) (v : Nat) (c : CardColor)
    (hv : v ≤ 10) :
    (createDeck rand).count (Card.number (v : Int) c) = 1 ∧
    (createDeck rand).count (Card.operation .multiply) = 4 ∧
    (createDeck rand).count (Card.operation .squareRoot) = 4 ∧
    (createDeck rand).length = 52 := by
  have hcnt : ∀ a, (createDeck rand).count a = unshuffledDeck.count a :=
    fun a => count_fisherYates rand a _ _
  have hlen : (createDeck rand).length = unshuffledDeck.length :=
    length_fisherYates rand _ _
  refine ⟨?_, ?_, ?_, ?_⟩
  · rw [hcnt]
    interval_cases v <;> cases c <;> decide
  · rw [hcnt]; decide
  · rw [hcnt]; decide
  · rw [hlen]; decide

/-- C7 witness: the composition facts at a concrete value, color and shuffle
source. -/
theorem createDeckCompositionWitness :
    (3 : Nat) ≤ 10 ∧
    ((createDeck (fun _ => 0)).count (Card.number ((3 : Nat) : Int) .gold) = 1 ∧
     (createDeck (fun _ => 0)).count (Card.operation .multiply) = 4 ∧
     (createDeck (fun _ => 0)).count (Card.operation .squareRoot) = 4 ∧
     (createDeck (fun _ => 0)).length = 52) :=
  ⟨by decide, createDeckComposition (fun _ => 0) 3 .gold (by decide)⟩

/-! ## C3 (amended): pot conservation when both winners exist -/

/-- C3 (amended): whenever the resolution produces both a small winner and a
big winner who are not both "bet both" forfeiters, the chip deltas credited
sum exactly to the pre-resolution pot (the odd chip of a split going to the
big side), and the pot is zeroed.  Without this proviso chips are destroyed —
see the counterexample. -/
theorem potConservedWithBothWinners (g : GameState) (w v : Player)
    (hsw : smallWinnerOf g = some w)
    (hbw : bigWinnerOf g = some v)
    (hwid : w.id ∈ g.players.map (·.id))
    (hvid : v.id ∈ g.players.map (·.id))
    (hnb : (bothBetLosersOf g).all (fun q => q.id ≠ w.id) = true ∨
           (bothBetLosersOf g).all (fun q => q.id ≠ v.id) = true) :
    sumChips (resolveEquationsAndDistributePot g) = sumChips g + g.pot ∧
    (resolveEquationsAndDistributePot g).pot = 0 := by
  refine ⟨?_, rfl⟩
  unfold resolveEquationsAndDistributePot
  rw [hsw, hbw]
  exact sumChips_distributePot { g with equationResults := some (resolveEquationTable g) } w v (bothBetLosersOf g) (allSmallOf g) (allBigOf g) hwid hvid hnb

/-- C3 witness fixture: two sole winners on distinct targets and an odd pot of
11; the small side receives 5 and the big side 6. -/
def pAW3 : Player :=
  { mkPlayer "A" "Amy" 100 with
      betType := some .small
      submittedEquations := some { small := some "1", big := none } }

def pBW3 : Player :=
  { mkPlayer "B" "Bob" 100 with
      betType := some .big
      submittedEquations := some { small := none, big := some "20" } }

def gW3 : GameState := mkGame [pAW3, pBW3] 11 .equation "A"

/-- C3 witness: conservation at the concrete odd-pot fixture. -/
theorem potConservedWithBothWinnersWitness :
    (smallWinnerOf gW3 = some pAW3 ∧ bigWinnerOf gW3 = some pBW3 ∧
     bothBetLosersOf gW3 = [] ∧ gW3.pot = 11) ∧
    sumChips (resolveEquationsAndDistributePot gW3) = sumChips gW3 + gW3.pot ∧
    (resolveEquationsAndDistributePot gW3).pot = 0 :=
  ⟨⟨by decide, by decide, by decide, by decide⟩,
   potConservedWithBothWinners gW3 pAW3 pBW3 (by decide) (by decide)
     (by decide) (by decide) (Or.inl (by decide))⟩

/-! ## C2 (amended): the "bet both" forfeiture redirection -/

/-- C2 (amended): when the small winner is itself a "bet both" forfeiter and
the big winner is not, the big winner takes the entire pot, every other player
(including every forfeiter) receives nothing, and the pot is zeroed.  (When
the small winner is not a forfeiter, the code pays the small winner instead —
see the counterexample for the resulting divergence from the claim.) -/
theorem bothBetForfeitRedirectsPot (g : GameState) (w v : Player)
    (hsw : smallWinnerOf g = some w)
    (hbw : bigWinnerOf g = some v)
    (hvlk : lookupPlayer g v.id = some v)
    (haS : allSmallOf g = false)
    (haB : allBigOf g = false)
    (hne : ¬(w.id = v.id))
    (hwl : (bothBetLosersOf g).all (fun q => q.id ≠ w.id) = false)
    (hvl : (bothBetLosersOf g).all (fun q => q.id ≠ v.id) = true) :
    chipsById (resolveEquationsAndDistributePot g) v.id = some (v.chips + g.pot) ∧
    (∀ qid, qid ≠ v.id →
      chipsById (resolveEquationsAndDistributePot g) qid = chipsById g qid) ∧
    (∀ q ∈ bothBetLosersOf g,
      chipsById (resolveEquationsAndDistributePot g) q.id = chipsById g q.id) ∧
    (resolveEquationsAndDistributePot g).winners.big = [v.id] ∧
    (resolveEquationsAndDistributePot g).pot = 0 := by
  have hlosne : bothBetLosersOf g ≠ [] := by
    intro he
    rw [he] at hwl
    simp at hwl
  have hstep : resolveEquationsAndDistributePot g =
      { potAllToBig { g with equationResults := some (resolveEquationTable g) } v
          with pot := 0 } := by
    unfold resolveEquationsAndDistributePot
    rw [hsw, hbw]
    simp only [distributePot, mixedCase, haS, haB, Bool.false_eq_true, if_false,
               if_neg hne, if_pos hlosne, hwl, hvl, if_true]
  rw [hstep]
  have hidf : ∀ q : Player, (addChipsF g.pot q).id = q.id := fun _ => rfl
  refine ⟨?_, ?_, ?_, rfl, rfl⟩
  · unfold chipsById lookupPlayer potAllToBig addChips
    show ((updatePlayer g.players v.id (addChipsF g.pot)).find? _).map _ = _
    rw [updatePlayer_find?_self g.players v.id (addChipsF g.pot) hidf]
    unfold lookupPlayer at hvlk
    rw [hvlk]
    rfl
  · intro qid hq
    unfold chipsById lookupPlayer potAllToBig addChips
    show ((updatePlayer g.players v.id (addChipsF g.pot)).find? _).map _ = _
    rw [updatePlayer_find?_ne g.players v.id qid (addChipsF g.pot) hidf hq]
  · intro q hqmem
    have hqid : q.id ≠ v.id := by
      have := List.all_eq_true.mp hvl q hqmem
      simpa using this
    unfold chipsById lookupPlayer potAllToBig addChips
    show ((updatePlayer g.players v.id (addChipsF g.pot)).find? _).map _ = _
    rw [updatePlayer_find?_ne g.players v.id q.id (addChipsF g.pot) hidf hqid]

/-- C2 witness fixture: the claim's own scenario — Xena bets both, wins small
(distance 0) but loses big (19 against Yui's 20); Yui bets big and wins it. -/
def pXW2 : Player :=
  { mkPlayer "X" "Xena" 100 with
      betType := some .both
      submittedEquations := some { small := some "1", big := some "19" } }

def pYW2 : Player :=
  { mkPlayer "Y" "Yui" 100 with
      betType := some .big
      submittedEquations := some { small := none, big := some "20" } }

def gW2 : GameState := mkGame [pXW2, pYW2] 10 .equation "X"

/-- C2 witness: in the scenario, Yui receives the whole pot and Xena nothing. -/
theorem bothBetForfeitRedirectsPotWitness :
    ((smallWinnerOf gW2 = some pXW2) ∧ (bigWinnerOf gW2 = some pYW2) ∧
     (bothBetLosersOf gW2).map (·.id) = ["X"]) ∧
    chipsById (resolveEquationsAndDistributePot gW2) pYW2.id =
      some (pYW2.chips + gW2.pot) ∧
    chipsById (resolveEquationsAndDistributePot gW2) "X" = chipsById gW2 "X" ∧
    (resolveEquationsAndDistributePot gW2).pot = 0 :=
  have h := bothBetForfeitRedirectsPot gW2 pXW2 pYW2 (by decide) (by decide)
    (by decide) (by decide) (by decide) (by decide) (by decide) (by decide)
  ⟨⟨by decide, by decide, by decide⟩, h.1, h.2.1 "X" (by decide), h.2.2.2.2⟩

/-! ## C8 (amended): elimination at zero chips -/

/-- C8 (amended): a player at zero chips is immediately marked folded and
inactive; if exactly one active non-folded player then remains, that player is
recorded as winner of both targets, is credited the entire pot and the phase
becomes `ended`; if zero remain, no winner is recorded, no chips move and the
phase is unchanged. -/
theorem checkPlayerEliminationSpec (g : GameState) (pid : String) (p : Player)
    (hp : lookupPlayer g pid = some p)
    (hz : p.chips ≤ 0)
    (hnd : (g.players.map (·.id)).Nodup) :
    ((lookupPlayer (checkPlayerElimination g pid) pid).map
        (fun q => (q.isFolded, q.isActive)) = some (true, false)) ∧
    (∀ w, activeNonFolded (updatePlayer g.players pid foldDeactivate) = [w] →
      (checkPlayerElimination g pid).phase = .ended ∧
      (checkPlayerElimination g pid).winners.small = [w.id] ∧
      (checkPlayerElimination g pid).winners.big = [w.id] ∧
      chipsById (checkPlayerElimination g pid) w.id = some (w.chips + g.pot)) ∧
    (activeNonFolded (updatePlayer g.players pid foldDeactivate) = [] →
      (checkPlayerElimination g pid).phase = g.phase ∧
      (checkPlayerElimination g pid).winners = g.winners ∧
      ∀ qid, chipsById (checkPlayerElimination g pid) qid = chipsById g qid) := by
  have hnd1 : ((updatePlayer g.players pid foldDeactivate).map (·.id)).Nodup := by
    rw [updatePlayer_map_id g.players pid foldDeactivate (fun _ => rfl)]
    exact hnd
  have hflag : ((updatePlayer g.players pid foldDeactivate).find?
      (fun q => q.id = pid)).map (fun q => (q.isFolded, q.isActive)) =
      some (true, false) := by
    rw [updatePlayer_find?_self g.players pid foldDeactivate (fun _ => rfl)]
    unfold lookupPlayer at hp
    rw [hp]
    rfl
  unfold checkPlayerElimination
  rw [hp]
  simp only []
  rw [if_pos hz]
  cases hact : activeNonFolded (updatePlayer g.players pid foldDeactivate) with
  | nil =>
    simp only [setPlayers, hact]
    refine ⟨hflag, ?_, ?_⟩
    · intro w hw
      exact absurd hw (by simp)
    · intro _
      refine ⟨rfl, rfl, ?_⟩
      intro qid
      unfold chipsById lookupPlayer
      by_cases hq : qid = pid
      · subst hq
        show ((updatePlayer g.players qid foldDeactivate).find? _).map _ = _
        rw [updatePlayer_find?_self g.players qid foldDeactivate (fun _ => rfl)]
        unfold lookupPlayer at hp
        rw [hp]
        rfl
      · show ((updatePlayer g.players pid foldDeactivate).find? _).map _ = _
        rw [updatePlayer_find?_ne g.players pid qid foldDeactivate (fun _ => rfl) hq]
  | cons w rest =>
    have hwmem : w ∈ updatePlayer g.players pid foldDeactivate := by
      have hmem : w ∈ activeNonFolded (updatePlayer g.players pid foldDeactivate) := by
        rw [hact]
        exact List.mem_cons_self w rest
      exact List.mem_of_mem_filter hmem
    cases rest with
    | cons w2 rest2 =>
      have hlen : ¬((w :: w2 :: rest2 : List Player).length ≤ 1) := by simp
      simp only [setPlayers, hact, if_neg hlen]
      refine ⟨hflag, ?_, ?_⟩
      · intro w3 hw3
        simp at hw3
      · intro hw0
        simp at hw0
    | nil =>
      have hlen : ((w :: [] : List Player).length ≤ 1) := by simp
      simp only [setPlayers, hact, if_pos hlen]
      have hwid : w.id ≠ pid := by
        intro he
        have hfind := find?_eq_of_nodup_mem _ w hnd1 hwmem
        rw [he, updatePlayer_find?_self g.players pid foldDeactivate (fun _ => rfl)] at hfind
        unfold lookupPlayer at hp
        rw [hp] at hfind
        have hwact : w.isActive = true := by
          have hmem : w ∈ activeNonFolded (updatePlayer g.players pid foldDeactivate) := by
            rw [hact]
            exact List.mem_cons_self w []
          have hmf := List.of_mem_filter hmem
          simp at hmf
          exact hmf.2
        have hwp : w = foldDeactivate p := (Option.some.injEq _ _).mp hfind.symm
        rw [hwp] at hwact
        simp [foldDeactivate] at hwact
      refine ⟨?_, ?_, ?_⟩
      · unfold addChips lookupPlayer
        show ((updatePlayer (updatePlayer g.players pid foldDeactivate) w.id
          (addChipsF _)).find? (fun q => q.id = pid)).map _ = _
        rw [updatePlayer_find?_ne _ w.id pid (addChipsF _) (fun _ => rfl) (Ne.symm hwid)]
        exact hflag
      · intro w3 hw3
        have hww : w3 = w := by
          simp at hw3
          exact hw3.symm
        subst hww
        refine ⟨?_, ?_, ?_, ?_⟩
        case _ => trivial
        case _ => trivial
        case _ => trivial
        unfold chipsById addChips lookupPlayer
        show ((updatePlayer (updatePlayer g.players pid foldDeactivate) w3.id
          (addChipsF _)).find? (fun q => q.id = w3.id)).map _ = _
        rw [updatePlayer_find?_self _ w3.id (addChipsF _) (fun _ => rfl)]
        rw [find?_eq_of_nodup_mem _ w3 hnd1 hwmem]
        rfl
      · intro hw0
        simp at hw0

/-- C8 witness fixture: the eliminated caller leaves exactly one active
player. -/
def pAW8 : Player := { mkPlayer "A" "Ana" 100 with chips := 0, bet := 50 }

def pBW8 : Player := mkPlayer "B" "Bert" 200

def gW8 : GameState := { mkGame [pAW8, pBW8] 50 .betting1 "A" with currentBet := 50 }

/-- C8 witness: the elimination theorem applied at a concrete game in which
one active player remains. -/
theorem checkPlayerEliminationSpecWitness :
    (lookupPlayer gW8 "A" = some pAW8 ∧ pAW8.chips ≤ 0 ∧
      (gW8.players.map (·.id)).Nodup) ∧
    (((lookupPlayer (checkPlayerElimination gW8 "A") "A").map
        (fun q => (q.isFolded, q.isActive)) = some (true, false)) ∧
     (∀ w, activeNonFolded (updatePlayer gW8.players "A" foldDeactivate) = [w] →
       (checkPlayerElimination gW8 "A").phase = .ended ∧
       (checkPlayerElimination gW8 "A").winners.small = [w.id] ∧
       (checkPlayerElimination gW8 "A").winners.big = [w.id] ∧
       chipsById (checkPlayerElimination gW8 "A") w.id = some (w.chips + gW8.pot)) ∧
     (activeNonFolded (updatePlayer gW8.players "A" foldDeactivate) = [] →
       (checkPlayerElimination gW8 "A").phase = gW8.phase ∧
       (checkPlayerElimination gW8 "A").winners = gW8.winners ∧
       ∀ qid, chipsById (checkPlayerElimination gW8 "A") qid = chipsById gW8 qid)) :=
  ⟨⟨by decide, by decide, by decide⟩,
   checkPlayerEliminationSpec gW8 "A" pAW8 (by decide) (by decide) (by decide)⟩

/-! ## C10: a multiply draw under the square-root lookahead is discarded -/

theorem popLast?_append_singleton : ∀ (xs : List Card) (c : Card),
    popLast? (xs ++ [c]) = some (c, xs)
  | [], _ => rfl
  | [_], _ => rfl
  | a :: b :: t, c => by
    show (match popLast? ((b :: t) ++ [c]) with
          | some (x, r) => some (x, a :: r)
          | none => none) = some (c, a :: b :: t)
    rw [popLast?_append_singleton (b :: t) c]

/-- C10: while a player still needs number cards, drawing a multiply card with
the square-root lookahead flag set silently skips the card: the dealing loop
continues on the rest of the deck with the player unchanged — so the card is
neither added to the hand nor offered as a swap, and no interrupt is raised. -/
theorem multiplyUnderSqrtDiscarded (rand : Nat → Nat) (target k : Nat)
    (rest : List Card) (p : Player)
    (hcount : countNumberCards p < target)
    (hsq : p.isSquareRoot = true) :
    dealPlayerLoop rand target k (rest ++ [Card.operation .multiply]) p =
      dealPlayerLoop rand target k rest p := by
  unfold dealPlayerLoop
  have hlen : (rest ++ [Card.operation .multiply]).length = rest.length + 1 := by
    simp
  rw [hlen]
  rw [dealPlayerGo]
  rw [if_pos hcount, popLast?_append_singleton]
  by_cases hdup : (p.cards.contains (Card.operation .multiply) || p.hasMultiply) = true
  · simp only [hdup]
    rfl
  · simp only [Bool.not_eq_true] at hdup
    simp only [hdup, hsq]
    rfl

def pW10 : Player := { mkPlayer "W" "Wes" 10 with isSquareRoot := true }

/-- C10 witness: the discard equation evaluated at a concrete deal. -/
theorem multiplyUnderSqrtDiscardedWitness :
    countNumberCards pW10 < 2 ∧ pW10.isSquareRoot = true ∧
    dealPlayerLoop (fun _ => 0) 2 0
        ([Card.number 3 .gold] ++ [Card.operation .multiply]) pW10 =
      dealPlayerLoop (fun _ => 0) 2 0 [Card.number 3 .gold] pW10 :=
  ⟨by decide, by decide,
   multiplyUnderSqrtDiscarded (fun _ => 0) 2 0 [Card.number 3 .gold] pW10
     (by decide) (by decide)⟩

/-! ## C4 (amended): the bet action contract -/

theorem jsMinInt_cons (x : Int) (t : List Int) :
    jsMinInt (x :: t) = match jsMinInt t with
      | none => some x
      | some y => some (Min.min x y) := rfl

/-- `Math.min(...l) < a` holds exactly when some element is below `a`
(an empty spread yields `Infinity`, which is below nothing). -/
theorem jsMinInt_lt_iff (a : Int) : ∀ (l : List Int),
    (match jsMinInt l with | some m => m < a | none => False) ↔ ∃ x ∈ l, x < a
  | [] => by simp [jsMinInt]
  | x :: t => by
    have ih := jsMinInt_lt_iff a t
    rw [jsMinInt_cons]
    cases h : jsMinInt t with
    | none =>
      have ih' : False ↔ ∃ z ∈ t, z < a := by rw [h] at ih; exact ih
      show x < a ↔ ∃ z ∈ x :: t, z < a
      simp only [List.mem_cons]
      constructor
      · intro hx
        exact ⟨x, Or.inl rfl, hx⟩
      · rintro ⟨z, hz | hzt, hza⟩
        · subst hz; exact hza
        · exact (ih'.mpr ⟨z, hzt, hza⟩).elim
    | some y =>
      have ih' : y < a ↔ ∃ z ∈ t, z < a := by rw [h] at ih; exact ih
      show Min.min x y < a ↔ ∃ z ∈ x :: t, z < a
      rw [min_lt_iff]
      simp only [List.mem_cons]
      constructor
      · rintro (hx | hy)
        · exact ⟨x, Or.inl rfl, hx⟩
        · obtain ⟨z, hzt, hza⟩ := ih'.mp hy
          exact ⟨z, Or.inr hzt, hza⟩
      · rintro ⟨z, hz | hzt, hza⟩
        · subst hz; exact Or.inl hza
        · exact Or.inr (ih'.mpr ⟨z, hzt, hza⟩)

/-- A player whose id is not the updated one survives `updatePlayer`
unchanged. -/
theorem mem_updatePlayer_of_ne (pid : String) (f : Player → Player) (q : Player)
    (hne : q.id ≠ pid) : ∀ (ps : List Player), q ∈ ps → q ∈ updatePlayer ps pid f
  | [], hq => by simp at hq
  | a :: t, hq => by
    show q ∈ (if a.id = pid then f a :: t else a :: updatePlayer t pid f)
    by_cases h : a.id = pid
    · rw [if_pos h]
      rcases List.mem_cons.mp hq with rfl | hqt
      · exact absurd h hne
      · exact List.mem_cons_of_mem _ hqt
    · rw [if_neg h]
      rcases List.mem_cons.mp hq with rfl | hqt
      · exact List.mem_cons_self _ _
      · exact List.mem_cons_of_mem _ (mem_updatePlayer_of_ne pid f q hne t hqt)

/-- The cyclic scan `(i+1, i+2, …, i)` (mod `len`) returns, when some index
other than the base `i` satisfies the predicate, a satisfying index that is
not the base (the base is scanned last). -/
theorem find?_cyclic_ne_base (len i jq : Nat) (pred : Nat → Bool)
    (hi : i < len) (hjq : jq < len) (hne : jq ≠ i) (hp : pred jq = true) :
    ∃ j, (((List.range len).map (fun k => (i + k + 1) % len)).find? pred) = some j ∧
      pred j = true ∧ j ≠ i := by
  obtain ⟨m, hm⟩ : ∃ m, len = m + 1 := ⟨len - 1, by omega⟩
  subst hm
  rw [List.range_succ, List.map_append]
  have hT_ne : ∀ x ∈ (List.range m).map (fun k => (i + k + 1) % (m + 1)), x ≠ i := by
    intro x hx
    obtain ⟨k, hk, hfk⟩ := List.mem_map.mp hx
    have hkm : k < m := List.mem_range.mp hk
    intro hxi
    rw [hxi] at hfk
    rcases Nat.lt_or_ge (i + k + 1) (m + 1) with hlt | hge
    · rw [Nat.mod_eq_of_lt hlt] at hfk
      omega
    · rw [Nat.mod_eq_sub_mod hge, Nat.mod_eq_of_lt (by omega)] at hfk
      omega
  have hjqT : jq ∈ (List.range m).map (fun k => (i + k + 1) % (m + 1)) := by
    rcases Nat.lt_or_ge i jq with hij | hij
    · refine List.mem_map.mpr ⟨jq - i - 1, List.mem_range.mpr (by omega), ?_⟩
      have h1 : i + (jq - i - 1) + 1 = jq := by omega
      rw [h1]
      exact Nat.mod_eq_of_lt hjq
    · refine List.mem_map.mpr ⟨jq + m - i, List.mem_range.mpr (by omega), ?_⟩
      have h1 : i + (jq + m - i) + 1 = jq + (m + 1) := by omega
      rw [h1, Nat.add_mod_right]
      exact Nat.mod_eq_of_lt hjq
  have hsome : (((List.range m).map (fun k => (i + k + 1) % (m + 1))).find? pred).isSome := by
    rw [List.find?_isSome]
    exact ⟨jq, hjqT, hp⟩
  obtain ⟨j, hj⟩ := Option.isSome_iff_exists.mp hsome
  refine ⟨j, ?_, List.find?_some hj, hT_ne j (List.mem_of_find?_eq_some hj)⟩
  rw [List.find?_append, hj]
  rfl

/-- When another active non-folded player exists and the phase-advance
condition fails, `moveToNextPlayer` only moves the turn, and moves it to a
player other than the current one. -/
theorem moveToNextPlayer_to_other (rand : Nat → Nat) (fuel : Nat) (g : GameState)
    (q : Player) (hnd : (g.players.map (fun r => r.id)).Nodup)
    (hq : q ∈ g.players) (hqa : q.isActive = true) (hqf : q.isFolded = false)
    (hqid : q.id ≠ g.currentPlayer)
    (hcur : g.currentPlayer ∈ g.players.map (fun r => r.id))
    (hblk : ((activeNonFolded g.players).all (fun r => r.bet = g.currentBet)) = false ∨
        ¬(g.phase = Phase.preflop ∨ g.phase = Phase.betting1 ∨ g.phase = Phase.betting2)) :
    ∃ np : Player, np ∈ g.players ∧ np.id ≠ g.currentPlayer ∧
      moveToNextPlayer rand fuel g = { g with currentPlayer := np.id } := by
  obtain ⟨pi, hpimem, hpiid⟩ := List.mem_map.mp hcur
  have hfi : g.players.findIdx? (fun p => p.id = g.currentPlayer)
      = some (g.players.findIdx (fun p => p.id = g.currentPlayer)) :=
    List.findIdx?_eq_some_of_exists ⟨pi, hpimem, by simp [hpiid]⟩
  set i := g.players.findIdx (fun p => p.id = g.currentPlayer) with hidef
  obtain ⟨hilt, hpI, -⟩ := List.findIdx?_eq_some_iff_getElem.mp hfi
  have hIid : (g.players[i]).id = g.currentPlayer := by simpa using hpI
  obtain ⟨jq, hjq_lt, hjq_eq⟩ := List.getElem_of_mem hq
  have hjq_ne : jq ≠ i := by
    intro hji
    subst hji
    rw [hjq_eq] at hIid
    exact hqid hIid
  have hpredjq : (fun j => match g.players[j]? with
      | some p => ¬p.isFolded ∧ p.isActive
      | none => false) jq = true := by
    have hjq? : g.players[jq]? = some q := by
      rw [List.getElem?_eq_getElem hjq_lt, hjq_eq]
    show (match g.players[jq]? with
      | some p => decide (¬p.isFolded ∧ p.isActive)
      | none => false) = true
    rw [hjq?]
    simp [hqf, hqa]
  obtain ⟨j, hfind, hpredj, hji⟩ :=
    find?_cyclic_ne_base g.players.length i jq
      (fun j => match g.players[j]? with
        | some p => ¬p.isFolded ∧ p.isActive
        | none => false)
      hilt hjq_lt hjq_ne hpredjq
  have hnext : nextActiveIdx g.players i = some j := hfind
  have hpredj' : (match g.players[j]? with
      | some p => decide (¬p.isFolded ∧ p.isActive)
      | none => false) = true := hpredj
  obtain ⟨np, hnpj, hnpfa⟩ : ∃ np, g.players[j]? = some np ∧
      (¬np.isFolded ∧ np.isActive) := by
    revert hpredj'
    cases g.players[j]? with
    | none => intro h; exact absurd h (by simp)
    | some r => intro h; exact ⟨r, rfl, by simpa using h⟩
  have hnpmem : np ∈ g.players := List.getElem?_mem hnpj
  have hnpid : np.id ≠ g.currentPlayer := by
    intro heq
    apply hji
    obtain ⟨hjlt, hjget⟩ := List.getElem?_eq_some_iff.mp hnpj
    have hjlt2 : j < (g.players.map (fun r => r.id)).length := by simpa using hjlt
    have hilt2 : i < (g.players.map (fun r => r.id)).length := by simpa using hilt
    have h1 : (g.players.map (fun r => r.id))[j] = np.id := by
      rw [List.getElem_map, hjget]
    have h2 : (g.players.map (fun r => r.id))[i] = g.currentPlayer := by
      rw [List.getElem_map, hIid]
    exact hnd.getElem_inj_iff.mp (h1.trans (heq.trans h2.symm))
  refine ⟨np, hnpmem, hnpid, ?_⟩
  have hcond : ¬(j ≤ i ∧
      ((activeNonFolded g.players).all (fun p => p.bet = g.currentBet)) = true ∧
      (g.phase = Phase.preflop ∨ g.phase = Phase.betting1 ∨
        g.phase = Phase.betting2)) := by
    rintro ⟨-, h2, h3⟩
    rcases hblk with hb | hb
    · rw [hb] at h2
      exact Bool.false_ne_true h2
    · exact hb h3
  simp only [moveToNextPlayer, hfi, hnext, hnpj]
  rw [if_neg hcond]

/-- C4 (amended): with a well-formed player list, a bet by the current player
is accepted exactly when the amount exceeds `currentBet`, is covered by the
bettor's chips and does not exceed any non-folded player's balance; acceptance
debits the chips by the amount, credits the pot, ADDS the amount to the
player's running `bet` (`bet += amount`), sets `currentBet` to the amount and
passes the turn to a different player.  The hypotheses require a second active
non-folded player whose standing bet differs from the amount, which is what
keeps the round from ending on this action. -/
theorem handleBetSpec (rand : Nat → Nat) (fuel : Nat) (g : GameState)
    (pid : String) (amount : Int) (p q : Player)
    (hnd : (g.players.map (fun r => r.id)).Nodup)
    (hp : lookupPlayer g pid = some p)
    (hcur : g.currentPlayer = pid)
    (hqmem : q ∈ g.players) (hqa : q.isActive = true) (hqf : q.isFolded = false)
    (hqid : q.id ≠ pid) (hqbet : q.bet ≠ amount) :
    ((∃ g', handleBet rand fuel g pid amount = .ok g') ↔
      (g.currentBet < amount ∧ amount ≤ p.chips ∧
       ∀ r ∈ g.players, r.isFolded = false → amount ≤ r.chips)) ∧
    (∀ g', handleBet rand fuel g pid amount = .ok g' →
       chipsById g' pid = some (p.chips - amount) ∧
       betById g' pid = some (p.bet + amount) ∧
       g'.pot = g.pot + amount ∧
       g'.currentBet = amount ∧
       g'.currentPlayer ≠ pid) := by
  have hpmem : p ∈ g.players := List.mem_of_find?_eq_some hp
  have hpid : p.id = pid := by
    have h := List.find?_some hp
    simpa using h
  have hpid_mem : pid ∈ g.players.map (fun r => r.id) := by
    rw [← hpid]
    exact List.mem_map_of_mem _ hpmem
  by_cases hc1 : amount ≤ g.currentBet
  · have herr : handleBet rand fuel g pid amount
        = .error "Bet must be higher than current bet" := by
      simp only [handleBet, hp]
      rw [if_pos hc1]
    refine ⟨⟨?_, ?_⟩, ?_⟩
    · rintro ⟨g', hg'⟩
      rw [herr] at hg'
      exact Except.noConfusion hg'
    · rintro ⟨h1, -, -⟩
      exact absurd h1 (not_lt.mpr hc1)
    · intro g' hg'
      rw [herr] at hg'
      exact Except.noConfusion hg'
  by_cases hc2 : p.chips < amount
  · have herr : handleBet rand fuel g pid amount = .error "Not enough chips" := by
      simp only [handleBet, hp]
      rw [if_neg hc1, if_pos hc2]
    refine ⟨⟨?_, ?_⟩, ?_⟩
    · rintro ⟨g', hg'⟩
      rw [herr] at hg'
      exact Except.noConfusion hg'
    · rintro ⟨-, h2, -⟩
      exact absurd h2 (not_le.mpr hc2)
    · intro g' hg'
      rw [herr] at hg'
      exact Except.noConfusion hg'
  have hcond_iff : ((match jsMinInt ((g.players.filter
        (fun r => ¬r.isFolded)).map (·.chips)) with
      | some m => decide (m < amount)
      | none => false) = true)
      ↔ ∃ r ∈ g.players, r.isFolded = false ∧ r.chips < amount := by
    have hlt := jsMinInt_lt_iff amount
      ((g.players.filter (fun r => ¬r.isFolded)).map (·.chips))
    constructor
    · intro hh
      have hp2 : (match jsMinInt ((g.players.filter
            (fun r => ¬r.isFolded)).map (·.chips)) with
          | some m => m < amount
          | none => False) := by
        revert hh
        cases jsMinInt ((g.players.filter (fun r => ¬r.isFolded)).map (·.chips)) with
        | none => intro hh; exact absurd hh (by simp)
        | some m => intro hh; simpa using hh
      obtain ⟨x, hxL, hxa⟩ := hlt.mp hp2
      obtain ⟨r, hrF, hrx⟩ := List.mem_map.mp hxL
      refine ⟨r, List.mem_of_mem_filter hrF, ?_, ?_⟩
      · have h := List.of_mem_filter hrF
        simpa using h
      · rw [show r.chips = x from hrx]
        exact hxa
    · rintro ⟨r, hrmem, hrnf, hrc⟩
      have hx : r.chips ∈ (g.players.filter (fun r => ¬r.isFolded)).map (·.chips) :=
        List.mem_map_of_mem _ (List.mem_filter.mpr ⟨hrmem, by simp [hrnf]⟩)
      have hp2 := hlt.mpr ⟨r.chips, hx, hrc⟩
      revert hp2
      cases jsMinInt ((g.players.filter (fun r => ¬r.isFolded)).map (·.chips)) with
      | none => intro hp2; exact hp2.elim
      | some m => intro hp2; simpa using hp2
  by_cases hc3 : ∃ r ∈ g.players, r.isFolded = false ∧ r.chips < amount
  · have hexc := hcond_iff.mpr hc3
    have herr : handleBet rand fuel g pid amount
        = .error "Cannot bet more than the lowest chip player amount" := by
      simp only [handleBet, hp]
      rw [if_neg hc1, if_neg hc2, if_pos hexc]
    refine ⟨⟨?_, ?_⟩, ?_⟩
    · rintro ⟨g', hg'⟩
      rw [herr] at hg'
      exact Except.noConfusion hg'
    · rintro ⟨-, -, hall⟩
      obtain ⟨r, hrmem, hrnf, hrc⟩ := hc3
      exact absurd hrc (not_lt.mpr (hall r hrmem hrnf))
    · intro g' hg'
      rw [herr] at hg'
      exact Except.noConfusion hg'
  · have hexc' : ¬((match jsMinInt ((g.players.filter
          (fun r => ¬r.isFolded)).map (·.chips)) with
        | some m => decide (m < amount)
        | none => false) = true) :=
      fun hh => hc3 (hcond_iff.mp hh)
    have hok : handleBet rand fuel g pid amount
        = .ok (moveToNextPlayer rand fuel (checkPlayerElimination
            { g with players := updatePlayer g.players pid (betUpd amount),
                     pot := g.pot + amount, currentBet := amount } pid)) := by
      simp only [handleBet, hp]
      rw [if_neg hc1, if_neg hc2, if_neg hexc']
    refine ⟨⟨fun _ => ⟨not_le.mp hc1, not_lt.mp hc2, ?_⟩, fun _ => ⟨_, hok⟩⟩, ?_⟩
    · intro r hrmem hrnf
      by_contra hlt2
      exact hc3 ⟨r, hrmem, hrnf, not_le.mp hlt2⟩
    intro g' hg'
    rw [hok] at hg'
    obtain rfl := Except.ok.inj hg'
    have hfind1 : (updatePlayer g.players pid (betUpd amount)).find?
        (fun r => r.id = pid) = some (betUpd amount p) := by
      have hp' : g.players.find? (fun r => r.id = pid) = some p := hp
      rw [updatePlayer_find?_self g.players pid (betUpd amount) (fun r => rfl), hp']
      rfl
    have hfold : (updatePlayer (updatePlayer g.players pid (betUpd amount)) pid
          foldDeactivate).find? (fun r => r.id = pid)
        = some (foldDeactivate (betUpd amount p)) := by
      rw [updatePlayer_find?_self _ pid foldDeactivate (fun r => rfl), hfind1]
      rfl
    have hidsU1 : (updatePlayer g.players pid (betUpd amount)).map (fun r => r.id)
        = g.players.map (fun r => r.id) :=
      updatePlayer_map_id g.players pid (betUpd amount) (fun r => rfl)
    have hidsU2 : (updatePlayer (updatePlayer g.players pid (betUpd amount)) pid
          foldDeactivate).map (fun r => r.id)
        = g.players.map (fun r => r.id) := by
      rw [updatePlayer_map_id _ pid foldDeactivate (fun r => rfl), hidsU1]
    have hqU1 : q ∈ updatePlayer g.players pid (betUpd amount) :=
      mem_updatePlayer_of_ne pid (betUpd amount) q hqid _ hqmem
    have hqU2 : q ∈ updatePlayer (updatePlayer g.players pid (betUpd amount)) pid
        foldDeactivate :=
      mem_updatePlayer_of_ne pid foldDeactivate q hqid _ hqU1
    have hfinal : ∀ (G2 : GameState) (w r : Player),
        G2.players.find? (fun x => x.id = pid) = some r →
        r.chips = p.chips - amount → r.bet = p.bet + amount →
        G2.pot = g.pot + amount → G2.currentBet = amount → w.id ≠ pid →
        chipsById { G2 with currentPlayer := w.id } pid = some (p.chips - amount) ∧
        betById { G2 with currentPlayer := w.id } pid = some (p.bet + amount) ∧
        ({ G2 with currentPlayer := w.id } : GameState).pot = g.pot + amount ∧
        ({ G2 with currentPlayer := w.id } : GameState).currentBet = amount ∧
        ({ G2 with currentPlayer := w.id } : GameState).currentPlayer ≠ pid := by
      intro G2 w r h1 h2 h3 h4 h5 h6
      refine ⟨?_, ?_, h4, h5, h6⟩
      · show (lookupPlayer { G2 with currentPlayer := w.id } pid).map (fun x => x.chips)
            = some (p.chips - amount)
        have h1' : lookupPlayer { G2 with currentPlayer := w.id } pid = some r := h1
        rw [h1', Option.map_some', h2]
      · show (lookupPlayer { G2 with currentPlayer := w.id } pid).map (fun x => x.bet)
            = some (p.bet + amount)
        have h1' : lookupPlayer { G2 with currentPlayer := w.id } pid = some r := h1
        rw [h1', Option.map_some', h3]
    by_cases helim : (betUpd amount p).chips ≤ 0
    · have hqAct : q ∈ activeNonFolded (updatePlayer (updatePlayer g.players pid
          (betUpd amount)) pid foldDeactivate) :=
        List.mem_filter.mpr ⟨hqU2, by simp [hqf, hqa]⟩
      by_cases hact : (activeNonFolded (updatePlayer (updatePlayer g.players pid
          (betUpd amount)) pid foldDeactivate)).length ≤ 1
      · cases hacts : activeNonFolded (updatePlayer (updatePlayer g.players pid
            (betUpd amount)) pid foldDeactivate) with
        | nil =>
          rw [hacts] at hqAct
          exact absurd hqAct (List.not_mem_nil q)
        | cons w rest =>
          rw [hacts] at hact hqAct
          have hrest : rest = [] := by
            simp only [List.length_cons] at hact
            exact List.eq_nil_of_length_eq_zero (by omega)
          subst hrest
          have hwq : q = w := by simpa using hqAct
          subst hwq
          have hG2 : checkPlayerElimination
              { g with players := updatePlayer g.players pid (betUpd amount),
                       pot := g.pot + amount, currentBet := amount } pid
              = { g with players := updatePlayer (updatePlayer (updatePlayer g.players pid (betUpd amount)) pid foldDeactivate) q.id (addChipsF (g.pot + amount)),
                         pot := g.pot + amount, currentBet := amount,
                         winners := { small := [q.id], big := [q.id] },
                         phase := Phase.ended } := by
            simp only [checkPlayerElimination, lookupPlayer, hfind1, setPlayers, addChips]
            rw [if_pos helim]
            simp only [hacts]
            rw [if_pos (by simp)]
          rw [hG2]
          have hndU2 : ((updatePlayer (updatePlayer g.players pid (betUpd amount)) pid
                foldDeactivate).map (fun r => r.id)).Nodup := by
            rw [hidsU2]; exact hnd
          have hfq : (updatePlayer (updatePlayer g.players pid (betUpd amount)) pid
                foldDeactivate).find? (fun r => r.id = q.id) = some q :=
            find?_eq_of_nodup_mem _ q hndU2 hqU2
          have hfq2 : (updatePlayer (updatePlayer (updatePlayer g.players pid
                (betUpd amount)) pid foldDeactivate) q.id
                (addChipsF (g.pot + amount))).find? (fun r => r.id = q.id)
              = some (addChipsF (g.pot + amount) q) := by
            rw [updatePlayer_find?_self _ q.id (addChipsF (g.pot + amount))
                (fun r => rfl), hfq]
            rfl
          have hq2mem := List.mem_of_find?_eq_some hfq2
          have hqcur : q.id ≠ g.currentPlayer := by rw [hcur]; exact hqid
          obtain ⟨np, hnpmem, hnpid, hmv⟩ :=
            moveToNextPlayer_to_other rand fuel
              { g with players := updatePlayer (updatePlayer (updatePlayer g.players pid (betUpd amount)) pid foldDeactivate) q.id (addChipsF (g.pot + amount)),
                       pot := g.pot + amount, currentBet := amount,
                       winners := { small := [q.id], big := [q.id] },
                       phase := Phase.ended }
              (addChipsF (g.pot + amount) q)
              (by show ((updatePlayer (updatePlayer (updatePlayer g.players pid (betUpd amount)) pid foldDeactivate) q.id (addChipsF (g.pot + amount))).map
                    (fun r => r.id)).Nodup
                  rw [updatePlayer_map_id _ q.id (addChipsF (g.pot + amount))
                      (fun r => rfl), hidsU2]
                  exact hnd)
              hq2mem hqa hqf hqcur
              (by show g.currentPlayer ∈ (updatePlayer (updatePlayer (updatePlayer g.players pid (betUpd amount)) pid foldDeactivate) q.id
                    (addChipsF (g.pot + amount))).map (fun r => r.id)
                  rw [updatePlayer_map_id _ q.id (addChipsF (g.pot + amount))
                      (fun r => rfl), hidsU2, hcur]
                  exact hpid_mem)
              (Or.inr (by intro hph; rcases hph with h | h | h <;> exact
                Phase.noConfusion h))
          rw [hmv]
          refine hfinal _ np (foldDeactivate (betUpd amount p)) ?_ rfl rfl rfl rfl ?_
          · show (updatePlayer (updatePlayer (updatePlayer g.players pid
                (betUpd amount)) pid foldDeactivate) q.id
                (addChipsF (g.pot + amount))).find? (fun x => x.id = pid)
              = some (foldDeactivate (betUpd amount p))
            rw [updatePlayer_find?_ne _ q.id pid (addChipsF (g.pot + amount))
                (fun r => rfl) (Ne.symm hqid)]
            exact hfold
          · intro h
            exact hnpid (by rw [h]; exact hcur.symm)
      · have hG2 : checkPlayerElimination
            { g with players := updatePlayer g.players pid (betUpd amount),
                     pot := g.pot + amount, currentBet := amount } pid
            = { g with players := updatePlayer (updatePlayer g.players pid (betUpd amount)) pid foldDeactivate,
                       pot := g.pot + amount, currentBet := amount } := by
          simp only [checkPlayerElimination, lookupPlayer, hfind1, setPlayers]
          rw [if_pos helim, if_neg hact]
        rw [hG2]
        have hqcur : q.id ≠ g.currentPlayer := by rw [hcur]; exact hqid
        obtain ⟨np, hnpmem, hnpid, hmv⟩ :=
          moveToNextPlayer_to_other rand fuel
            { g with players := updatePlayer (updatePlayer g.players pid (betUpd amount)) pid foldDeactivate,
                     pot := g.pot + amount, currentBet := amount }
            q
            (by show ((updatePlayer (updatePlayer g.players pid (betUpd amount)) pid
                  foldDeactivate).map (fun r => r.id)).Nodup
                rw [hidsU2]; exact hnd)
            hqU2 hqa hqf hqcur
            (by show g.currentPlayer ∈ (updatePlayer (updatePlayer g.players pid
                  (betUpd amount)) pid foldDeactivate).map (fun r => r.id)
                rw [hidsU2, hcur]; exact hpid_mem)
            (Or.inl (List.all_eq_false.mpr ⟨q, hqAct,
              by simp only [decide_eq_true_eq]; exact hqbet⟩))
        rw [hmv]
        refine hfinal _ np (foldDeactivate (betUpd amount p)) hfold rfl rfl rfl rfl ?_
        intro h
        exact hnpid (by rw [h]; exact hcur.symm)
    · have hG2 : checkPlayerElimination
          { g with players := updatePlayer g.players pid (betUpd amount),
                   pot := g.pot + amount, currentBet := amount } pid
          = { g with players := updatePlayer g.players pid (betUpd amount),
                     pot := g.pot + amount, currentBet := amount } := by
        simp only [checkPlayerElimination, lookupPlayer, hfind1]
        rw [if_neg helim]
      rw [hG2]
      have hqAct1 : q ∈ activeNonFolded (updatePlayer g.players pid (betUpd amount)) :=
        List.mem_filter.mpr ⟨hqU1, by simp [hqf, hqa]⟩
      have hqcur : q.id ≠ g.currentPlayer := by rw [hcur]; exact hqid
      obtain ⟨np, hnpmem, hnpid, hmv⟩ :=
        moveToNextPlayer_to_other rand fuel
          { g with players := updatePlayer g.players pid (betUpd amount),
                   pot := g.pot + amount, currentBet := amount }
          q
          (by show ((updatePlayer g.players pid (betUpd amount)).map
                (fun r => r.id)).Nodup
              rw [hidsU1]; exact hnd)
          hqU1 hqa hqf hqcur
          (by show g.currentPlayer ∈ (updatePlayer g.players pid
                (betUpd amount)).map (fun r => r.id)
              rw [hidsU1, hcur]; exact hpid_mem)
          (Or.inl (List.all_eq_false.mpr ⟨q, hqAct1,
            by simp only [decide_eq_true_eq]; exact hqbet⟩))
      rw [hmv]
      refine hfinal _ np (betUpd amount p) hfind1 rfl rfl rfl rfl ?_
      intro h
      exact hnpid (by rw [h]; exact hcur.symm)

/-- C4 witness: the bet contract at the concrete fixture — Al (current player,
bet 10) raises to 30 over Bo (bet 20); the action is accepted, Al's chips drop
by 30, the pot and Al's running bet rise by 30, `currentBet` becomes 30 and
the turn passes away from Al. -/
theorem handleBetSpecWitness :
    ((gC4.players.map (fun r => r.id)).Nodup ∧
     lookupPlayer gC4 "A" = some pA4 ∧ gC4.currentPlayer = "A" ∧
     pB4 ∈ gC4.players ∧ pB4.isActive = true ∧ pB4.isFolded = false ∧
     pB4.id ≠ "A" ∧ pB4.bet ≠ (30 : Int)) ∧
    (((∃ g', handleBet (fun _ => 0) 0 gC4 "A" 30 = .ok g') ↔
       (gC4.currentBet < 30 ∧ (30 : Int) ≤ pA4.chips ∧
        ∀ r ∈ gC4.players, r.isFolded = false → (30 : Int) ≤ r.chips)) ∧
     (∀ g', handleBet (fun _ => 0) 0 gC4 "A" 30 = .ok g' →
        chipsById g' "A" = some (pA4.chips - 30) ∧
        betById g' "A" = some (pA4.bet + 30) ∧
        g'.pot = gC4.pot + 30 ∧
        g'.currentBet = 30 ∧
        g'.currentPlayer ≠ "A")) :=
  ⟨⟨by decide, by decide, by decide, by decide, by decide, by decide, by decide,
    by decide⟩,
   handleBetSpec (fun _ => 0) 0 gC4 "A" 30 pA4 pB4 (by decide) (by decide)
     (by decide) (by decide) (by decide) (by decide) (by decide) (by decide)⟩

/-! ## C1 (amended): the tie-break reduce as an argmin over whole-hand keys -/

theorem ltInf_anti : ∀ a b, ltInf a b = false → ltInf b a = false → a = b
  | some x, some y, h1, h2 => by
    simp only [ltInf, decide_eq_false_iff_not, not_lt] at h1 h2
    exact congrArg some (Nat.le_antisymm h2 h1)
  | some _, none, h1, _ => by simp [ltInf] at h1
  | none, some _, _, h2 => by simp [ltInf] at h2
  | none, none, _, _ => rfl

theorem ltInf_trans : ∀ a b c, ltInf a b = true → ltInf b c = true → ltInf a c = true
  | some x, some y, some z, h1, h2 => by
    simp only [ltInf, decide_eq_true_eq] at h1 h2 ⊢
    omega
  | some _, some _, none, _, _ => by simp [ltInf]
  | some _, none, _, _, h2 => by simp [ltInf] at h2
  | none, _, _, h1, _ => by simp [ltInf] at h1

theorem ltInf_asym : ∀ a b, ltInf a b = true → ltInf b a = true → False
  | some x, some y, h1, h2 => by
    simp only [ltInf, decide_eq_true_eq] at h1 h2
    omega
  | some _, none, _, h2 => by simp [ltInf] at h2
  | none, _, h1, _ => by simp [ltInf] at h1

theorem gtNegInf_anti : ∀ a b, gtNegInf a b = false → gtNegInf b a = false → a = b
  | some x, some y, h1, h2 => by
    simp only [gtNegInf, decide_eq_false_iff_not, not_lt] at h1 h2
    exact congrArg some (Nat.le_antisymm h1 h2)
  | some _, none, h1, _ => by simp [gtNegInf] at h1
  | none, some _, _, h2 => by simp [gtNegInf] at h2
  | none, none, _, _ => rfl

theorem gtNegInf_trans : ∀ a b c,
    gtNegInf a b = true → gtNegInf b c = true → gtNegInf a c = true
  | some x, some y, some z, h1, h2 => by
    simp only [gtNegInf, decide_eq_true_eq] at h1 h2 ⊢
    omega
  | some _, some _, none, _, _ => by simp [gtNegInf]
  | some _, none, _, _, h2 => by simp [gtNegInf] at h2
  | none, _, _, h1, _ => by simp [gtNegInf] at h1

theorem gtNegInf_asym : ∀ a b, gtNegInf a b = true → gtNegInf b a = true → False
  | some x, some y, h1, h2 => by
    simp only [gtNegInf, decide_eq_true_eq] at h1 h2
    omega
  | some _, none, _, h2 => by simp [gtNegInf] at h2
  | none, _, h1, _ => by simp [gtNegInf] at h1

theorem foldl_pick_mem (pick : Player → Player → Player)
    (hpick : ∀ a b, pick a b = a ∨ pick a b = b) :
    ∀ (t : List Player) (h0 : Player), t.foldl pick h0 ∈ h0 :: t
  | [], _ => List.mem_cons_self _ _
  | b :: t, h0 => by
    have ih := foldl_pick_mem pick hpick t (pick h0 b)
    show t.foldl pick (pick h0 b) ∈ h0 :: b :: t
    rcases List.mem_cons.mp ih with he | ht
    · rcases hpick h0 b with hp | hp
      · rw [he, hp]
        exact List.mem_cons_self _ _
      · rw [he, hp]
        exact List.mem_cons_of_mem _ (List.mem_cons_self _ _)
    · exact List.mem_cons_of_mem _ (List.mem_cons_of_mem _ ht)

/-- The `reduce` fold returns a strict minimum for the key order whenever the
keys are pairwise distinct. -/
theorem foldl_pick_min (k : Player → Option Nat) (lt : Option Nat → Option Nat → Bool)
    (hanti : ∀ a b, lt a b = false → lt b a = false → a = b)
    (htrans : ∀ a b c, lt a b = true → lt b c = true → lt a c = true) :
    ∀ (t : List Player) (h0 : Player),
      (h0 :: t).Pairwise (fun a c => k a ≠ k c) →
      ∀ x ∈ h0 :: t,
        x ≠ t.foldl (fun a c => if lt (k a) (k c) then a else c) h0 →
        lt (k (t.foldl (fun a c => if lt (k a) (k c) then a else c) h0)) (k x) = true
  | [], h0, _, x, hx, hxw => by
    rcases List.mem_cons.mp hx with rfl | hx2
    · exact absurd rfl hxw
    · exact absurd hx2 (List.not_mem_nil x)
  | b :: t, h0, hpair, x, hx, hxw => by
    rw [List.pairwise_cons] at hpair
    obtain ⟨hh, hpair1⟩ := hpair
    have hkhb : k h0 ≠ k b := hh b (List.mem_cons_self _ _)
    by_cases hc : lt (k h0) (k b) = true
    · have hfold : (b :: t).foldl (fun a c => if lt (k a) (k c) then a else c) h0
          = t.foldl (fun a c => if lt (k a) (k c) then a else c) h0 := by
        show t.foldl (fun a c => if lt (k a) (k c) then a else c)
            (if lt (k h0) (k b) then h0 else b) = _
        rw [if_pos hc]
      have hpair' : (h0 :: t).Pairwise (fun a c => k a ≠ k c) :=
        List.pairwise_cons.mpr ⟨fun y hy => hh y (List.mem_cons_of_mem _ hy),
          (List.pairwise_cons.mp hpair1).2⟩
      have ih := foldl_pick_min k lt hanti htrans t h0 hpair'
      rw [hfold] at hxw ⊢
      rcases List.mem_cons.mp hx with rfl | hx2
      · exact ih _ (List.mem_cons_self _ _) hxw
      rcases List.mem_cons.mp hx2 with rfl | hx3
      · by_cases hwh : t.foldl (fun a c => if lt (k a) (k c) then a else c) h0 = h0
        · rw [hwh]
          exact hc
        · exact htrans _ _ _ (ih h0 (List.mem_cons_self _ _) (fun he => hwh he.symm)) hc
      · exact ih x (List.mem_cons_of_mem _ hx3) hxw
    · have hcf : lt (k h0) (k b) = false := by simpa using hc
      have hcb : lt (k b) (k h0) = true := by
        cases hv : lt (k b) (k h0) with
        | true => rfl
        | false => exact absurd (hanti _ _ hcf hv) hkhb
      have hfold : (b :: t).foldl (fun a c => if lt (k a) (k c) then a else c) h0
          = t.foldl (fun a c => if lt (k a) (k c) then a else c) b := by
        show t.foldl (fun a c => if lt (k a) (k c) then a else c)
            (if lt (k h0) (k b) then h0 else b) = _
        rw [if_neg hc]
      have ih := foldl_pick_min k lt hanti htrans t b hpair1
      rw [hfold] at hxw ⊢
      rcases List.mem_cons.mp hx with rfl | hx2
      · by_cases hwb : t.foldl (fun a c => if lt (k a) (k c) then a else c) b = b
        · rw [hwb]
          exact hcb
        · exact htrans _ _ _ (ih b (List.mem_cons_self _ _) (fun he => hwb he.symm)) hcb
      rcases List.mem_cons.mp hx2 with rfl | hx3
      · exact ih _ (List.mem_cons_self _ _) hxw
      · exact ih x (List.mem_cons_of_mem _ hx3) hxw

theorem reduceWinner_argmin (k : Player → Option Nat)
    (lt : Option Nat → Option Nat → Bool)
    (hanti : ∀ a b, lt a b = false → lt b a = false → a = b)
    (htrans : ∀ a b c, lt a b = true → lt b c = true → lt a c = true) :
    ∀ (l : List Player), l ≠ [] →
      l.Pairwise (fun a c => k a ≠ k c) →
      ∃ w, reduceWinner (fun a c => if lt (k a) (k c) then a else c) l = some w ∧
        w ∈ l ∧ ∀ x ∈ l, x ≠ w → lt (k w) (k x) = true
  | [], hl, _ => absurd rfl hl
  | h0 :: t, _, hpair =>
    ⟨t.foldl (fun a c => if lt (k a) (k c) then a else c) h0, rfl,
     foldl_pick_mem (fun a c => if lt (k a) (k c) then a else c)
       (fun a c => by
         by_cases hac : lt (k a) (k c) = true
         · exact Or.inl (if_pos hac)
         · exact Or.inr (if_neg hac)) t h0,
     foldl_pick_min k lt hanti htrans t h0 hpair⟩

theorem argmin_unique (k : Player → Option Nat) (lt : Option Nat → Option Nat → Bool)
    (hasym : ∀ a b, lt a b = true → lt b a = true → False)
    (l l' : List Player) (hperm : l.Perm l') (w w' : Player)
    (hw : w ∈ l) (hmin : ∀ x ∈ l, x ≠ w → lt (k w) (k x) = true)
    (hw' : w' ∈ l') (hmin' : ∀ x ∈ l', x ≠ w' → lt (k w') (k x) = true) :
    w = w' := by
  by_contra hne
  exact hasym _ _
    (hmin w' (hperm.mem_iff.mpr hw') (fun he => hne he.symm))
    (hmin' w (hperm.mem_iff.mp hw) hne)

/-- C1 (amended): among a tied list of players, the small tie-break picks the
player whose MINIMUM COLOR RANK OVER ALL NUMBER CARDS is least (not the color
of the minimum-valued card), the big tie-break the player whose maximum color
rank is greatest; a comparison standing at "not less" keeps the later player,
and when the compared keys are pairwise distinct the choice is a strict
argmin/argmax, invariant under any permutation of the tied players. -/
theorem tieBreakArgminPermInvariant (l l' : List Player) (hl : l ≠ [])
    (hperm : l.Perm l')
    (hS : l.Pairwise (fun a c => minCardKey a ≠ minCardKey c))
    (hB : l.Pairwise (fun a c => maxCardKey a ≠ maxCardKey c)) :
    (∀ a b, ltInf (minCardKey a) (minCardKey b) = false → pickSmallWinner a b = b) ∧
    (∀ a b, gtNegInf (maxCardKey a) (maxCardKey b) = false → pickBigWinner a b = b) ∧
    (∃ ws wb,
      reduceWinner pickSmallWinner l = some ws ∧
      reduceWinner pickSmallWinner l' = some ws ∧
      ws ∈ l ∧ (∀ x ∈ l, x ≠ ws → ltInf (minCardKey ws) (minCardKey x) = true) ∧
      reduceWinner pickBigWinner l = some wb ∧
      reduceWinner pickBigWinner l' = some wb ∧
      wb ∈ l ∧ (∀ x ∈ l, x ≠ wb → gtNegInf (maxCardKey wb) (maxCardKey x) = true)) := by
  have hl' : l' ≠ [] := by
    intro he
    rw [he] at hperm
    exact hl hperm.eq_nil
  have hSsym : ∀ {x y : Player},
      minCardKey x ≠ minCardKey y → minCardKey y ≠ minCardKey x :=
    fun hxy he => hxy he.symm
  have hBsym : ∀ {x y : Player},
      maxCardKey x ≠ maxCardKey y → maxCardKey y ≠ maxCardKey x :=
    fun hxy he => hxy he.symm
  have hS' := (hperm.pairwise_iff hSsym).mp hS
  have hB' := (hperm.pairwise_iff hBsym).mp hB
  obtain ⟨ws, hws1, hws2, hws3⟩ :=
    reduceWinner_argmin minCardKey ltInf ltInf_anti ltInf_trans l hl hS
  obtain ⟨ws', hws1', hws2', hws3'⟩ :=
    reduceWinner_argmin minCardKey ltInf ltInf_anti ltInf_trans l' hl' hS'
  obtain ⟨wb, hwb1, hwb2, hwb3⟩ :=
    reduceWinner_argmin maxCardKey gtNegInf gtNegInf_anti gtNegInf_trans l hl hB
  obtain ⟨wb', hwb1', hwb2', hwb3'⟩ :=
    reduceWinner_argmin maxCardKey gtNegInf gtNegInf_anti gtNegInf_trans l' hl' hB'
  have hwseq : ws = ws' :=
    argmin_unique minCardKey ltInf ltInf_asym l l' hperm ws ws' hws2 hws3 hws2' hws3'
  have hwbeq : wb = wb' :=
    argmin_unique maxCardKey gtNegInf gtNegInf_asym l l' hperm wb wb' hwb2 hwb3
      hwb2' hwb3'
  refine ⟨?_, ?_, ws, wb, hws1, ?_, hws2, hws3, hwb1, ?_, hwb2, hwb3⟩
  · intro a b h
    show (if ltInf (minCardKey a) (minCardKey b) then a else b) = b
    rw [if_neg (by simp [h])]
  · intro a b h
    show (if gtNegInf (maxCardKey a) (maxCardKey b) then a else b) = b
    rw [if_neg (by simp [h])]
  · rw [hwseq]
    exact hws1'
  · rw [hwbeq]
    exact hwb1'

/-- C1 witness: Alice (gold 1, dark 5: least color rank 0, greatest 3) and Bob
(silver 2, silver 3: both ranks 2) tie; in both list orders the reduce picks
Alice for small and Alice for big — even though Alice's minimum-VALUED card is
the gold 1, whose color rank is the highest. -/
theorem tieBreakArgminPermInvariantWitness :
    (([pA1, pB1] : List Player) ≠ [] ∧
     ([pA1, pB1] : List Player).Perm [pB1, pA1] ∧
     ([pA1, pB1] : List Player).Pairwise (fun a c => minCardKey a ≠ minCardKey c) ∧
     ([pA1, pB1] : List Player).Pairwise (fun a c => maxCardKey a ≠ maxCardKey c)) ∧
    ((∀ a b, ltInf (minCardKey a) (minCardKey b) = false → pickSmallWinner a b = b) ∧
     (∀ a b, gtNegInf (maxCardKey a) (maxCardKey b) = false → pickBigWinner a b = b) ∧
     (∃ ws wb,
       reduceWinner pickSmallWinner [pA1, pB1] = some ws ∧
       reduceWinner pickSmallWinner [pB1, pA1] = some ws ∧
       ws ∈ [pA1, pB1] ∧
       (∀ x ∈ [pA1, pB1], x ≠ ws → ltInf (minCardKey ws) (minCardKey x) = true) ∧
       reduceWinner pickBigWinner [pA1, pB1] = some wb ∧
       reduceWinner pickBigWinner [pB1, pA1] = some wb ∧
       wb ∈ [pA1, pB1] ∧
       (∀ x ∈ [pA1, pB1], x ≠ wb → gtNegInf (maxCardKey wb) (maxCardKey x) = true))) :=
  ⟨⟨by decide, List.Perm.swap pB1 pA1 [], by decide, by decide⟩,
   tieBreakArgminPermInvariant [pA1, pB1] [pB1, pA1] (by decide)
     (List.Perm.swap pB1 pA1 []) (by decide) (by decide)⟩

end NumberPoker
